import Mathlib

/-!
Verification of the webhook-ingestion backend (xeno-fde-backend).

This file shallowly embeds the ingestion pipeline of the repository:
the HMAC signature verifier, the entity upsert layer, the checkout state
machine, the event router and the abandonment sweeper, all translated from
the JavaScript/TypeScript sources (dist/webhook.js, src/services/abandonment.ts,
src/routes/webhook.ts).

Modelling conventions:
* Monetary values are rationals; the JavaScript engine works with binary
  doubles, whose rounding is outside the scope of the claims checked here
  (every claim compared is structural, not about rounding).
* Timestamps are integers (milliseconds since epoch); every function that
  calls Date.now or new Date in the source takes the current time as an
  explicit argument.
* A JSON field that may be absent, null or unparsable is an Option; the
  JavaScript truthiness idioms (x condOr d) are embedded explicitly below.
* The database is a record of lists of rows; a Prisma upsert keyed by a
  unique column updates every row matching the key (equivalent on states
  satisfying the schema uniqueness constraints) or appends a freshly
  created row.
-/

namespace Xeno

/-! ## Byte-level primitives: SHA-256, HMAC, base64, UTF-8

Translated from Node's crypto.createHmac('sha256', secret).update(rawBody,
'utf8').digest('base64') and crypto.timingSafeEqual as used by verifyHmac in
dist/webhook.js. Machine words are Nat reduced mod 2^32.
-/

def m32 (x : Nat) : Nat := x % 4294967296

def rotr32 (n x : Nat) : Nat := (x >>> n) ||| (m32 (x <<< (32 - n)))

def not32 (x : Nat) : Nat := x ^^^ 4294967295

structure Hash8 where
  a : Nat
  b : Nat
  c : Nat
  d : Nat
  e : Nat
  f : Nat
  g : Nat
  h : Nat
deriving DecidableEq

def sha256H0 : Hash8 :=
  ⟨1779033703, 3144134277, 1013904242, 2773480762,
   1359893119, 2600822924, 528734635, 1541459225⟩

def sha256K : List Nat :=
  [1116352408, 1899447441, 3049323471, 3921009573,
   961987163, 1508970993, 2453635748, 2870763221,
   3624381080, 310598401, 607225278, 1426881987,
   1925078388, 2162078206, 2614888103, 3248222580,
   3835390401, 4022224774, 264347078, 604807628,
   770255983, 1249150122, 1555081692, 1996064986,
   2554220882, 2821834349, 2952996808, 3210313671,
   3336571891, 3584528711, 113926993, 338241895,
   666307205, 773529912, 1294757372, 1396182291,
   1695183700, 1986661051, 2177026350, 2456956037,
   2730485921, 2820302411, 3259730800, 3345764771,
   3516065817, 3600352804, 4094571909, 275423344,
   430227734, 506948616, 659060556, 883997877,
   958139571, 1322822218, 1537002063, 1747873779,
   1955562222, 2024104815, 2227730452, 2361852424,
   2428436474, 2756734187, 3204031479, 3329325298]

def ssig0 (x : Nat) : Nat := (rotr32 7 x) ^^^ (rotr32 18 x) ^^^ (x >>> 3)

def ssig1 (x : Nat) : Nat := (rotr32 17 x) ^^^ (rotr32 19 x) ^^^ (x >>> 10)

def bsig0 (x : Nat) : Nat := (rotr32 2 x) ^^^ (rotr32 13 x) ^^^ (rotr32 22 x)

def bsig1 (x : Nat) : Nat := (rotr32 6 x) ^^^ (rotr32 11 x) ^^^ (rotr32 25 x)

/-- Big-endian 32-bit words of a 64-byte block. -/
def blockWords (block : List Nat) : List Nat :=
  (List.range 16).map fun i =>
    (block.getD (4 * i) 0) <<< 24 + (block.getD (4 * i + 1) 0) <<< 16 +
    (block.getD (4 * i + 2) 0) <<< 8 + block.getD (4 * i + 3) 0

/-- The 64-word message schedule of a block. -/
def sha256Schedule (block : List Nat) : List Nat :=
  (List.range 48).foldl
    (fun w _ =>
      w ++ [m32 (ssig1 (w.getD (w.length - 2) 0) + w.getD (w.length - 7) 0 +
                 ssig0 (w.getD (w.length - 15) 0) + w.getD (w.length - 16) 0)])
    (blockWords block)

/-- One SHA-256 compression step over a 64-byte block. -/
def sha256Compress (st : Hash8) (block : List Nat) : Hash8 :=
  let w := sha256Schedule block
  let r := (List.range 64).foldl
    (fun (v : Hash8) i =>
      let t1 := m32 (v.h + bsig1 v.e + ((v.e &&& v.f) ^^^ (not32 v.e &&& v.g)) +
                     sha256K.getD i 0 + w.getD i 0)
      let t2 := m32 (bsig0 v.a + ((v.a &&& v.b) ^^^ (v.a &&& v.c) ^^^ (v.b &&& v.c)))
      ⟨m32 (t1 + t2), v.a, v.b, v.c, m32 (v.d + t1), v.e, v.f, v.g⟩)
    st
  ⟨m32 (st.a + r.a), m32 (st.b + r.b), m32 (st.c + r.c), m32 (st.d + r.d),
   m32 (st.e + r.e), m32 (st.f + r.f), m32 (st.g + r.g), m32 (st.h + r.h)⟩

/-- Big-endian 8-byte encoding of a length in bits. -/
def beBytes8 (n : Nat) : List Nat :=
  [(n >>> 56) % 256, (n >>> 48) % 256, (n >>> 40) % 256, (n >>> 32) % 256,
   (n >>> 24) % 256, (n >>> 16) % 256, (n >>> 8) % 256, n % 256]

/-- SHA-256 padding: 0x80, zeros to 56 mod 64, then the bit length. -/
def sha256Pad (msg : List Nat) : List Nat :=
  msg ++ [0x80] ++ List.replicate ((119 - msg.length % 64) % 64) 0 ++
    beBytes8 (msg.length * 8)

/-- Fold the padded byte stream through the compression function, consuming
64-byte blocks as the running buffer fills. -/
def sha256Blocks (bytes : List Nat) : Hash8 × List Nat :=
  bytes.foldl
    (fun (acc : Hash8 × List Nat) byte =>
      let buf := acc.2 ++ [byte]
      if buf.length = 64 then (sha256Compress acc.1 buf, []) else (acc.1, buf))
    (sha256H0, [])

/-- Big-endian bytes of the eight hash words. -/
def digestBytes (v : Hash8) : List Nat :=
  [(v.a >>> 24) % 256, (v.a >>> 16) % 256, (v.a >>> 8) % 256, v.a % 256,
   (v.b >>> 24) % 256, (v.b >>> 16) % 256, (v.b >>> 8) % 256, v.b % 256,
   (v.c >>> 24) % 256, (v.c >>> 16) % 256, (v.c >>> 8) % 256, v.c % 256,
   (v.d >>> 24) % 256, (v.d >>> 16) % 256, (v.d >>> 8) % 256, v.d % 256,
   (v.e >>> 24) % 256, (v.e >>> 16) % 256, (v.e >>> 8) % 256, v.e % 256,
   (v.f >>> 24) % 256, (v.f >>> 16) % 256, (v.f >>> 8) % 256, v.f % 256,
   (v.g >>> 24) % 256, (v.g >>> 16) % 256, (v.g >>> 8) % 256, v.g % 256,
   (v.h >>> 24) % 256, (v.h >>> 16) % 256, (v.h >>> 8) % 256, v.h % 256]

/-- SHA-256 of a byte list. -/
def sha256 (msg : List Nat) : List Nat :=
  digestBytes (sha256Blocks (sha256Pad msg)).1

/-- HMAC-SHA256 with the standard 64-byte block size. -/
def hmacSha256 (key msg : List Nat) : List Nat :=
  let k0 := if key.length > 64 then sha256 key else key
  let kp := k0 ++ List.replicate (64 - k0.length) 0
  sha256 ((kp.map (· ^^^ 0x5c)) ++ sha256 ((kp.map (· ^^^ 0x36)) ++ msg))

def b64Alphabet : List Char :=
  "ABCDEFGHIJKLMNOPQRSTUVWXYZabcdefghijklmnopqrstuvwxyz0123456789+/".toList

def b64c (n : Nat) : Char := b64Alphabet.getD n 'A'

/-- Standard base64 encoding, three bytes to four characters. -/
def base64Chunks : List Nat → List Char
  | a :: b :: c :: rest =>
    let n := a * 65536 + b * 256 + c
    b64c (n / 262144 % 64) :: b64c (n / 4096 % 64) :: b64c (n / 64 % 64) ::
      b64c (n % 64) :: base64Chunks rest
  | [a, b] =>
    let n := a * 65536 + b * 256
    [b64c (n / 262144 % 64), b64c (n / 4096 % 64), b64c (n / 64 % 64), '=']
  | [a] =>
    let n := a * 65536
    [b64c (n / 262144 % 64), b64c (n / 4096 % 64), '=', '=']
  | [] => []

def base64 (bs : List Nat) : String := String.mk (base64Chunks bs)

/-- UTF-8 encoding of one character. -/
def utf8Char (c : Char) : List Nat :=
  let n := c.toNat
  if n < 0x80 then [n]
  else if n < 0x800 then [0xC0 ||| (n >>> 6), 0x80 ||| (n &&& 0x3F)]
  else if n < 0x10000 then
    [0xE0 ||| (n >>> 12), 0x80 ||| ((n >>> 6) &&& 0x3F), 0x80 ||| (n &&& 0x3F)]
  else
    [0xF0 ||| (n >>> 18), 0x80 ||| ((n >>> 12) &&& 0x3F),
     0x80 ||| ((n >>> 6) &&& 0x3F), 0x80 ||| (n &&& 0x3F)]

/-- UTF-8 bytes of a string, as Buffer.from(s) produces them. -/
def utf8Bytes (s : String) : List Nat := (s.data.map utf8Char).flatten

/-- Node's crypto.timingSafeEqual: throws a RangeError when the two buffers
have different lengths, otherwise returns the boolean equality (computed in
constant time; only the functional behaviour is modelled). -/
def timingSafeEqual (a b : List Nat) : Except Unit Bool :=
  if a.length = b.length then Except.ok (decide (a = b)) else Except.error ()

/-- The base64 HMAC-SHA256 digest the verifier computes over the raw body. -/
def hmacDigest (secret rawBody : String) : String :=
  base64 (hmacSha256 (utf8Bytes secret) (utf8Bytes rawBody))

/-- verifyHmac from dist/webhook.js: compute the base64 HMAC-SHA256 digest of
the raw body and compare it to the claimed header with timingSafeEqual. The
Except propagates the RangeError that timingSafeEqual raises on buffers of
different lengths. -/
def verifyHmac (rawBody hmacHeader secret : String) : Except Unit Bool :=
  timingSafeEqual (utf8Bytes (hmacDigest secret rawBody)) (utf8Bytes hmacHeader)

/-! ## JavaScript idioms

The handlers use x condOr d on strings and numbers, where the empty string,
0, null and undefined are falsy. An absent or null JSON field is none.
-/

/-- JavaScript (s condOr d) for a possibly absent string: empty and absent
both fall back to the default. -/
def jsStrOr (s : Option String) (d : String) : String :=
  match s with
  | none => d
  | some v => if v = "" then d else v

/-- JavaScript (s condOr null) for a possibly absent string. -/
def jsStrOrNull (s : Option String) : Option String :=
  match s with
  | none => none
  | some v => if v = "" then none else some v

/-- JavaScript (x condOr d) for a possibly absent number: 0, NaN and absent
fall back to the default (an unparsable string is modelled as none). -/
def jsNumOr (x : Option Rat) (d : Rat) : Rat :=
  match x with
  | none => d
  | some v => if v = 0 then d else v

/-- JavaScript (n condOr d) for a possibly absent integer. -/
def jsIntOr (x : Option Int) (d : Int) : Int :=
  match x with
  | none => d
  | some v => if v = 0 then d else v

/-- JavaScript (n condOr d) for a possibly absent natural count. -/
def jsNatOr (x : Option Nat) (d : Nat) : Nat :=
  match x with
  | none => d
  | some v => if v = 0 then d else v

/-- JavaScript String(x) on a field that should be present: String(undefined)
is the string "undefined". -/
def jsId (x : Option String) : String := x.getD "undefined"

/-! ## Event payloads

The webhook body is one loosely typed JSON object which the router casts to
the per-topic interface; the record below carries every field any handler
reads, and the per-handler payloads are its projections.
-/

structure CustomerPayload where
  id : Option String
  email : Option String
  first_name : Option String
  last_name : Option String
  total_spent : Option Rat
  orders_count : Option Int
deriving DecidableEq

structure LineItemPayload where
  product_id : Option Nat
  title : Option String
  price : Option Rat
  vendor : Option String
  quantity : Option Nat
deriving DecidableEq

structure VariantPayload where
  price : Option Rat
deriving DecidableEq

structure TransactionPayload where
  amount : Option Rat
  currency : Option String
deriving DecidableEq

structure RefundLineItemPayload where
  subtotal : Option Rat
deriving DecidableEq

structure OrderPayload where
  id : Option String
  total_price : Option Rat
  currency : Option String
  order_number : Option Int
  customer : Option CustomerPayload
  line_items : Option (List LineItemPayload)
deriving DecidableEq

structure CheckoutPayload where
  id : Option String
  total_price : Option Rat
  currency : Option String
  completed_at : Option Int
  cart_token : Option String
  email : Option String
  line_items : Option (List LineItemPayload)
deriving DecidableEq

structure RefundPayload where
  id : Option String
  order_id : Option String
  note : Option String
  transactions : Option (List TransactionPayload)
  refund_line_items : Option (List RefundLineItemPayload)
deriving DecidableEq

structure ProductPayload where
  id : Option String
  title : Option String
  vendor : Option String
  product_type : Option String
  variants : Option (List VariantPayload)
deriving DecidableEq

structure WebhookPayload where
  id : Option String
  total_price : Option Rat
  currency : Option String
  order_number : Option Int
  customer : Option CustomerPayload
  line_items : Option (List LineItemPayload)
  checkout_token : Option String
  completed_at : Option Int
  cart_token : Option String
  email : Option String
  token : Option String
  order_id : Option String
  note : Option String
  transactions : Option (List TransactionPayload)
  refund_line_items : Option (List RefundLineItemPayload)
  first_name : Option String
  last_name : Option String
  total_spent : Option Rat
  orders_count : Option Int
  title : Option String
  vendor : Option String
  product_type : Option String
  variants : Option (List VariantPayload)
deriving DecidableEq

/-- The cast to the ShopifyOrder interface. -/
def WebhookPayload.asOrder (p : WebhookPayload) : OrderPayload :=
  ⟨p.id, p.total_price, p.currency, p.order_number, p.customer, p.line_items⟩

/-- The cast to the ShopifyCustomer interface. -/
def WebhookPayload.asCustomer (p : WebhookPayload) : CustomerPayload :=
  ⟨p.id, p.email, p.first_name, p.last_name, p.total_spent, p.orders_count⟩

/-- The cast to the ShopifyCheckout interface. -/
def WebhookPayload.asCheckout (p : WebhookPayload) : CheckoutPayload :=
  ⟨p.id, p.total_price, p.currency, p.completed_at, p.cart_token, p.email,
   p.line_items⟩

/-- The cast to the ShopifyRefund interface. -/
def WebhookPayload.asRefund (p : WebhookPayload) : RefundPayload :=
  ⟨p.id, p.order_id, p.note, p.transactions, p.refund_line_items⟩

/-- The cast to the ShopifyProduct interface. -/
def WebhookPayload.asProduct (p : WebhookPayload) : ProductPayload :=
  ⟨p.id, p.title, p.vendor, p.product_type, p.variants⟩

/-- The cast to the cart payload, which only the token field is read from. -/
def WebhookPayload.asCart (p : WebhookPayload) : Option String := p.token

/-! ## Database rows

One structure per Prisma model (prisma/schema, migration part of the repo).
The Order, Customer and Product primary key is the bare source-system id;
Checkout and Refund have a synthetic cuid primary key (a Nat drawn from the
store's counter here) plus a composite unique key scoped by tenantId.
createdAt and updatedAt are carried only on Checkout, where the sweeper and
the cart-liveness path read or write them; every claim about the other
tables excludes timestamps.
-/

inductive CheckoutStatus where
  | PENDING
  | COMPLETED
  | ABANDONED
deriving DecidableEq

structure TenantRow where
  id : String
  shopDomain : String
  webhookSecret : String
  accessToken : Option String
deriving DecidableEq

structure OrderRow where
  id : String
  tenantId : String
  customerId : Option String
  total : Rat
  currency : String
  orderNumber : Option Int
  rawJson : OrderPayload
deriving DecidableEq

structure CustomerRow where
  id : String
  tenantId : String
  email : String
  firstName : Option String
  lastName : Option String
  totalSpent : Rat
  ordersCount : Int
  rawJson : CustomerPayload
deriving DecidableEq

structure ProductRow where
  id : String
  tenantId : String
  title : Option String
  vendor : Option String
  productType : Option String
  price : Rat
  rawJson : Option ProductPayload
deriving DecidableEq

structure CheckoutRow where
  id : Nat
  tenantId : String
  shopifyCheckoutId : String
  shopifyCartToken : Option String
  email : Option String
  totalPrice : Rat
  currency : String
  status : CheckoutStatus
  lineItemsCount : Nat
  completedAt : Option Int
  abandonedAt : Option Int
  createdAt : Int
  updatedAt : Int
  rawJson : CheckoutPayload
deriving DecidableEq

structure RefundRow where
  id : Nat
  tenantId : String
  shopifyRefundId : String
  shopifyOrderId : String
  amount : Rat
  currency : String
  reason : Option String
  rawJson : RefundPayload
deriving DecidableEq

structure Store where
  orders : List OrderRow
  customers : List CustomerRow
  products : List ProductRow
  checkouts : List CheckoutRow
  refunds : List RefundRow
  nextId : Nat
deriving DecidableEq

def Store.empty : Store := ⟨[], [], [], [], [], 0⟩

/-! ## Entity upsert layer and checkout state machine (dist/webhook.js) -/

/-- findTenantByDomain: unique lookup on Tenant.shopDomain. -/
def findTenantByDomain (tenants : List TenantRow) (shopDomain : String) :
    Option TenantRow :=
  tenants.find? (fun tn => tn.shopDomain == shopDomain)

/-- The Order upsert inside processOrderCreated, keyed by the bare primary
key id; create sets every column, update overwrites total, currency and
rawJson only. -/
def orderUpsert (t : String) (p : OrderPayload) (os : List OrderRow) :
    List OrderRow :=
  let orderId := jsId p.id
  let total := jsNumOr p.total_price 0
  let currency := jsStrOr p.currency "USD"
  if os.any (fun o => o.id == orderId) then
    os.map (fun o =>
      if o.id = orderId then
        { o with total := total, currency := currency, rawJson := p }
      else o)
  else
    os ++ [{ id := orderId, tenantId := t,
             customerId := p.customer.map (fun c => jsId c.id),
             total := total, currency := currency,
             orderNumber := p.order_number, rawJson := p }]

/-- processCustomer from dist/webhook.js: upsert keyed by the bare primary
key id; totalSpent and ordersCount are seeded from the payload's
self-reported fields on both create and update. -/
def processCustomer (t : String) (c : CustomerPayload) (cs : List CustomerRow) :
    List CustomerRow :=
  let customerId := jsId c.id
  let email := jsStrOr c.email ""
  let firstName := jsStrOrNull c.first_name
  let lastName := jsStrOrNull c.last_name
  let totalSpent := (c.total_spent).getD 0
  let ordersCount := jsIntOr c.orders_count 0
  if cs.any (fun r => r.id == customerId) then
    cs.map (fun r =>
      if r.id = customerId then
        { r with email := email, firstName := firstName, lastName := lastName,
                 totalSpent := totalSpent, ordersCount := ordersCount,
                 rawJson := c }
      else r)
  else
    cs ++ [{ id := customerId, tenantId := t, email := email,
             firstName := firstName, lastName := lastName,
             totalSpent := totalSpent, ordersCount := ordersCount,
             rawJson := c }]

/-- The raw SQL aggregate in processOrderCreated: COALESCE(SUM(total), 0)
over Order rows with the given customerId and tenantId. -/
def orderTotalSum (os : List OrderRow) (t cid : String) : Rat :=
  (os.filter (fun o => o.customerId == some cid && o.tenantId == t)).foldl
    (fun a o => a + o.total) 0

/-- The COUNT(*) part of the same aggregate. -/
def orderRowCount (os : List OrderRow) (t cid : String) : Int :=
  ((os.filter (fun o => o.customerId == some cid && o.tenantId == t)).length : Int)

/-- The per-line-item Product upsert inside processOrderCreated, guarded by
the truthiness of item.product_id (0 and absent are skipped) and keyed by
the bare primary key id. -/
def productUpsertFromItem (t : String) (ps : List ProductRow)
    (item : LineItemPayload) : List ProductRow :=
  match item.product_id with
  | none => ps
  | some pid =>
    if pid = 0 then ps
    else
      let productId := toString pid
      let price := jsNumOr item.price 0
      if ps.any (fun r => r.id == productId) then
        ps.map (fun r =>
          if r.id = productId then
            { r with title := item.title, vendor := jsStrOrNull item.vendor,
                     price := price }
          else r)
      else
        ps ++ [{ id := productId, tenantId := t, title := item.title,
                 vendor := jsStrOrNull item.vendor, productType := none,
                 price := price, rawJson := none }]

/-- processOrderCreated: upsert the Order, upsert the embedded customer and
recompute its aggregates from the Order table, then upsert Products from the
line items. -/
def processOrderCreated (t : String) (p : OrderPayload) (s : Store) : Store :=
  let s1 := { s with orders := orderUpsert t p s.orders }
  let s2 :=
    match p.customer with
    | none => s1
    | some c =>
      let cid := jsId c.id
      let cs1 := processCustomer t c s1.customers
      let totalSpent := orderTotalSum s1.orders t cid
      let cnt := orderRowCount s1.orders t cid
      { s1 with customers := cs1.map (fun (r : CustomerRow) =>
          if r.id = cid then
            { r with totalSpent := totalSpent, ordersCount := cnt }
          else r) }
  { s2 with
    products := (p.line_items.getD []).foldl (productUpsertFromItem t)
      s2.products }

/-- processProduct: upsert keyed by the bare primary key id; the price is
the first variant's price when that raw string is truthy, else 0. -/
def processProduct (t : String) (p : ProductPayload) (ps : List ProductRow) :
    List ProductRow :=
  let productId := jsId p.id
  let price :=
    match p.variants with
    | some (v :: _) =>
      match v.price with
      | some pr => pr
      | none => 0
    | _ => (0 : Rat)
  if ps.any (fun r => r.id == productId) then
    ps.map (fun r =>
      if r.id = productId then
        { r with title := p.title, vendor := jsStrOrNull p.vendor,
                 productType := jsStrOrNull p.product_type, price := price,
                 rawJson := some p }
      else r)
  else
    ps ++ [{ id := productId, tenantId := t, title := p.title,
             vendor := jsStrOrNull p.vendor,
             productType := jsStrOrNull p.product_type, price := price,
             rawJson := some p }]

/-- The reduce over checkout line items: quantity with a truthy default
of 1, the whole sum defaulting to 0 when line_items is absent. -/
def checkoutLineItemsCount (li : Option (List LineItemPayload)) : Nat :=
  match li with
  | none => 0
  | some items => items.foldl (fun a it => a + jsNatOr it.quantity 1) 0

/-- processCheckout: upsert keyed by the composite unique key
(tenantId, shopifyCheckoutId). The status is COMPLETED exactly when the
payload carries a non-null completed_at, else PENDING, on create and update
alike; the update branch does not touch shopifyCartToken, abandonedAt or
createdAt. -/
def processCheckout (t : String) (p : CheckoutPayload) (now : Int) (s : Store) :
    Store :=
  let scid := jsId p.id
  let totalPrice := jsNumOr p.total_price 0
  let liCount := checkoutLineItemsCount p.line_items
  let isCompleted := p.completed_at.isSome
  let status :=
    if isCompleted then CheckoutStatus.COMPLETED else CheckoutStatus.PENDING
  let email := jsStrOrNull p.email
  let currency := jsStrOr p.currency "USD"
  if s.checkouts.any (fun c =>
      decide (c.tenantId = t ∧ c.shopifyCheckoutId = scid)) then
    { s with checkouts := s.checkouts.map (fun c =>
        if c.tenantId = t ∧ c.shopifyCheckoutId = scid then
          { c with email := email, totalPrice := totalPrice,
                   currency := currency, status := status,
                   lineItemsCount := liCount, completedAt := p.completed_at,
                   rawJson := p, updatedAt := now }
        else c) }
  else
    { s with
      checkouts := s.checkouts ++ [{
        id := s.nextId, tenantId := t, shopifyCheckoutId := scid,
        shopifyCartToken := jsStrOrNull p.cart_token, email := email,
        totalPrice := totalPrice, currency := currency, status := status,
        lineItemsCount := liCount, completedAt := p.completed_at,
        abandonedAt := none, createdAt := now, updatedAt := now,
        rawJson := p }],
      nextId := s.nextId + 1 }

/-- processCart: find the first Checkout correlated by cart token (Prisma
drops the filter entirely when the token field is absent) and refresh its
updatedAt as a liveness signal; nothing else changes. -/
def processCart (t : String) (token : Option String) (now : Int) (s : Store) :
    Store :=
  match s.checkouts.find? (fun c =>
      c.tenantId == t &&
        match token with
        | none => true
        | some tok => c.shopifyCartToken == some tok) with
  | none => s
  | some c0 =>
    { s with checkouts := s.checkouts.map (fun c =>
        if c.id = c0.id then { c with updatedAt := now } else c) }

/-- The refund amount computation: the transaction-amount sum when truthy,
else the refund-line-item subtotal sum when truthy, else 0 (the JavaScript
condOr chain makes a zero transaction sum fall through). -/
def refundAmount (p : RefundPayload) : Rat :=
  jsNumOr
    (p.transactions.map (fun txs =>
      txs.foldl (fun a tx => a + jsNumOr tx.amount 0) 0))
    (jsNumOr
      (p.refund_line_items.map (fun lis =>
        lis.foldl (fun a it => a + jsNumOr it.subtotal 0) 0))
      0)

/-- The refund currency: the first transaction's currency when truthy,
defaulting to USD. -/
def refundCurrency (p : RefundPayload) : String :=
  jsStrOr ((p.transactions.bind List.head?).bind (fun tx => tx.currency)) "USD"

/-- processRefund: upsert keyed by the composite unique key
(tenantId, shopifyRefundId); the update branch rewrites amount, reason and
rawJson but not currency or shopifyOrderId. -/
def processRefund (t : String) (p : RefundPayload) (s : Store) : Store :=
  let rid := jsId p.id
  let oid := jsId p.order_id
  let amount := refundAmount p
  let reason := jsStrOrNull p.note
  if s.refunds.any (fun r =>
      decide (r.tenantId = t ∧ r.shopifyRefundId = rid)) then
    { s with refunds := s.refunds.map (fun r =>
        if r.tenantId = t ∧ r.shopifyRefundId = rid then
          { r with amount := amount, reason := reason, rawJson := p }
        else r) }
  else
    { s with
      refunds := s.refunds ++ [{
        id := s.nextId, tenantId := t, shopifyRefundId := rid,
        shopifyOrderId := oid, amount := amount,
        currency := refundCurrency p, reason := reason, rawJson := p }],
      nextId := s.nextId + 1 }

/-- markCheckoutCompleted: find the Checkout whose shopifyCheckoutId equals
the order's checkout_token under the same tenant; when found and not already
COMPLETED, set status COMPLETED and stamp completedAt with the current time
(abandonedAt is not cleared). -/
def markCheckoutCompleted (t checkoutToken : String) (now : Int) (s : Store) :
    Store :=
  match s.checkouts.find? (fun c =>
      decide (c.tenantId = t ∧ c.shopifyCheckoutId = checkoutToken)) with
  | none => s
  | some c0 =>
    if c0.status = CheckoutStatus.COMPLETED then s
    else
      { s with checkouts := s.checkouts.map (fun c =>
          if c.id = c0.id then
            { c with status := CheckoutStatus.COMPLETED,
                     completedAt := some now, updatedAt := now }
          else c) }

/-- routeWebhook: dispatch on the topic string; order events additionally
run the checkout-completion check when the payload's checkout_token is
truthy. Unrecognized topics are dropped; cache invalidation has no store
effect. -/
def routeWebhook (t topic : String) (p : WebhookPayload) (now : Int)
    (s : Store) : Store :=
  if topic = "orders/create" ∨ topic = "orders/updated" then
    let s1 := processOrderCreated t p.asOrder s
    match p.checkout_token with
    | some tok => if tok = "" then s1 else markCheckoutCompleted t tok now s1
    | none => s1
  else if topic = "customers/create" ∨ topic = "customers/update" then
    { s with customers := processCustomer t p.asCustomer s.customers }
  else if topic = "products/create" ∨ topic = "products/update" then
    { s with products := processProduct t p.asProduct s.products }
  else if topic = "checkouts/create" ∨ topic = "checkouts/update" then
    processCheckout t p.asCheckout now s
  else if topic = "carts/create" ∨ topic = "carts/update" then
    processCart t p.asCart now s
  else if topic = "refunds/create" then
    processRefund t p.asRefund s
  else s

/-! ## Abandonment sweeper (src/services/abandonment.ts) -/

def abandonmentThresholdMs : Int := 60 * 60 * 1000

/-- The WHERE clause of the sweeper's updateMany: same tenant, PENDING, and
created strictly before now minus the 60-minute threshold. -/
def sweepEligible (t : String) (now : Int) (c : CheckoutRow) : Bool :=
  decide (c.tenantId = t ∧ c.status = CheckoutStatus.PENDING ∧
    c.createdAt < now - abandonmentThresholdMs)

/-- detectAbandonedCheckouts: one set-based conditional update transitioning
every eligible PENDING checkout of the tenant to ABANDONED with
abandonedAt stamped now, returning the number of rows updated. -/
def detectAbandonedCheckouts (t : String) (now : Int) (s : Store) :
    Nat × Store :=
  ((s.checkouts.filter (sweepEligible t now)).length,
   { s with checkouts := s.checkouts.map (fun c =>
       if sweepEligible t now c then
         { c with status := CheckoutStatus.ABANDONED, abandonedAt := some now,
                  updatedAt := now }
       else c) })

/-! ## Inbound webhook route (src/routes/webhook.ts) -/

structure WebhookRequest where
  hmacHeader : Option String
  topic : Option String
  shopDomain : Option String
  rawBody : Option String
  body : WebhookPayload
deriving DecidableEq

/-- The POST /webhook/shopify handler: reject with 400 when a required
header is falsy, 500 when the raw body was not captured, 404 when no tenant
matches the shop domain, 401 when verification returns false; a RangeError
thrown by the verifier is caught and masked as 200; otherwise route the
event and answer 200. Returns the response status and the resulting store. -/
def handleShopifyWebhook (tenants : List TenantRow) (req : WebhookRequest)
    (now : Int) (s : Store) : Nat × Store :=
  match jsStrOrNull req.hmacHeader, jsStrOrNull req.topic,
        jsStrOrNull req.shopDomain with
  | some hmac, some topic, some domain =>
    (match jsStrOrNull req.rawBody with
     | none => (500, s)
     | some raw =>
       match findTenantByDomain tenants domain with
       | none => (404, s)
       | some tenant =>
         match verifyHmac raw hmac tenant.webhookSecret with
         | Except.error _ => (200, s)
         | Except.ok false => (401, s)
         | Except.ok true => (200, routeWebhook tenant.id topic req.body now s))
  | _, _, _ => (400, s)

/-! ## Concrete fixtures used by witnesses and counterexamples -/

def wCheckoutPayload : CheckoutPayload :=
  ⟨some "c1", some 10, none, none, none, none, none⟩

def wPendingRow : CheckoutRow :=
  ⟨0, "t1", "c1", none, none, 10, "USD", CheckoutStatus.PENDING, 0, none, none,
   0, 0, wCheckoutPayload⟩

def wSweepStore : Store := ⟨[], [], [], [wPendingRow], [], 1⟩

def wCompletedCheckoutPayload : CheckoutPayload :=
  ⟨some "c1", some 50, some "USD", some 1000, none, none, none⟩

def wNullCheckoutPayload : CheckoutPayload :=
  ⟨some "c1", some 50, some "USD", none, none, none, none⟩

def wCompletedRow : CheckoutRow :=
  ⟨0, "t1", "c1", none, none, 50, "USD", CheckoutStatus.COMPLETED, 0,
   some 1000, none, 1000, 1000, wCompletedCheckoutPayload⟩

def wCompletedStore : Store := ⟨[], [], [], [wCompletedRow], [], 1⟩

/-- The timestamp side of the spec's checkout invariant that actually holds
inductively in the code: a COMPLETED row has completedAt set, an ABANDONED
row has abandonedAt set, and a PENDING row has no completedAt. -/
def checkoutTimestampInv (c : CheckoutRow) : Prop :=
  (c.status = CheckoutStatus.COMPLETED → c.completedAt.isSome = true) ∧
  (c.status = CheckoutStatus.ABANDONED → c.abandonedAt.isSome = true) ∧
  (c.status = CheckoutStatus.PENDING → c.completedAt = none)

instance (c : CheckoutRow) : Decidable (checkoutTimestampInv c) := by
  unfold checkoutTimestampInv; infer_instance

def storeCheckoutInv (s : Store) : Prop :=
  ∀ c ∈ s.checkouts, checkoutTimestampInv c

instance (s : Store) : Decidable (storeCheckoutInv s) := by
  unfold storeCheckoutInv; infer_instance

def wZeroTxRefundPayload : RefundPayload :=
  ⟨some "r1", some "o1", none, some [⟨some 0, some "EUR"⟩], some [⟨some 5⟩]⟩

def wZeroTxRefundRow : RefundRow :=
  ⟨0, "t1", "r1", "o1", 5, "EUR", none, wZeroTxRefundPayload⟩

def wEmptyPayload : WebhookPayload :=
  ⟨none, none, none, none, none, none, none, none, none, none, none, none,
   none, none, none, none, none, none, none, none, none, none, none⟩

def wTenant : TenantRow := ⟨"t1", "shop.example.com", "secret", none⟩

/-- A request carrying all three Shopify headers but no captured raw body. -/
def wNoRawBodyRequest : WebhookRequest :=
  ⟨some "x", some "orders/create", some "shop.example.com", none,
   wEmptyPayload⟩

/-- A request missing the X-Shopify-Hmac-Sha256 header. -/
def wMissingHeaderRequest : WebhookRequest :=
  ⟨none, some "orders/create", some "shop.example.com", some "body",
   wEmptyPayload⟩

/-- A request for a shop domain no registered tenant matches. -/
def wUnknownTenantRequest : WebhookRequest :=
  ⟨some "x", some "orders/create", some "other.example.com", some "body",
   wEmptyPayload⟩

/-- A request whose claimed signature is shorter than the 44-byte digest,
so the verifier throws instead of returning false. -/
def wShortSigRequest : WebhookRequest :=
  ⟨some "x", some "orders/create", some "shop.example.com", some "body",
   wEmptyPayload⟩

/-- A request whose claimed signature has the correct 44-byte length but
the wrong value, so verification returns false. -/
def wWrongSigRequest : WebhookRequest :=
  ⟨some "AAAAAAAAAAAAAAAAAAAAAAAAAAAAAAAAAAAAAAAAAAAA",
   some "orders/create", some "shop.example.com", some "body",
   wEmptyPayload⟩

/-- A PENDING checkout whose shopifyCheckoutId is the empty string. -/
def wEmptyTokenRow : CheckoutRow :=
  ⟨0, "t1", "", none, none, 10, "USD", CheckoutStatus.PENDING, 0, none, none,
   0, 0, wCheckoutPayload⟩

def wEmptyTokenStore : Store := ⟨[], [], [], [wEmptyTokenRow], [], 1⟩

/-- An order payload carrying a non-null but empty checkout_token. -/
def wEmptyTokenOrderPayload : WebhookPayload :=
  { wEmptyPayload with id := some "o1", checkout_token := some "" }

/-- An order payload whose checkout_token matches the PENDING fixture. -/
def wOrderWithTokenPayload : WebhookPayload :=
  { wEmptyPayload with id := some "o1", checkout_token := some "c1" }

def wOrderTenantA : OrderPayload := ⟨some "1", some 10, some "USD", none, none, none⟩

def wOrderTenantB : OrderPayload := ⟨some "1", some 99, some "USD", none, none, none⟩

/-- Tenant A has ingested order 1; tenant B then receives an event for the
same source-system order id. -/
def wCrossTenantStore : Store := processOrderCreated "A" wOrderTenantA Store.empty

/-- A customers/create body whose self-reported totals disagree with the
(empty) order set. -/
def wSelfReportedCustomerPayload : WebhookPayload :=
  { wEmptyPayload with
    id := some "cu1"
    email := some "a@b.c"
    total_spent := some 999
    orders_count := some 7 }

def wEmbeddedCustomer : CustomerPayload :=
  ⟨some "cu1", some "a@b.c", none, none, some 999, some 7⟩

def wOrderWithCustomerPayload : OrderPayload :=
  ⟨some "o2", some 25, some "USD", some 5, some wEmbeddedCustomer, none⟩

/-! ## Idempotence infrastructure

Named building blocks of the per-line-item Product upsert, used to reason
about repeated application of processOrderCreated. itemKey is the truthy
product id of a line item; prodSet is the field overwrite the update branch
performs; prodCreate is the created row; prodChain applies the overwrites
of a whole item list in order.
-/

def itemKey (item : LineItemPayload) : Option String :=
  match item.product_id with
  | none => none
  | some pid => if pid = 0 then none else some (toString pid)

def prodSet (item : LineItemPayload) (r : ProductRow) : ProductRow :=
  { r with title := item.title, vendor := jsStrOrNull item.vendor,
           price := jsNumOr item.price 0 }

def prodCreate (t : String) (item : LineItemPayload) (k : String) :
    ProductRow :=
  ⟨k, t, item.title, jsStrOrNull item.vendor, none, jsNumOr item.price 0, none⟩

def prodChainStep (r : ProductRow) (item : LineItemPayload) : ProductRow :=
  match itemKey item with
  | some k => if r.id = k then prodSet item r else r
  | none => r

def prodChain (items : List LineItemPayload) (r : ProductRow) : ProductRow :=
  items.foldl prodChainStep r

/-- N-fold application of processOrderCreated with the same payload. -/
def iterateOrder (t : String) (p : OrderPayload) : Nat → Store → Store
  | 0, s => s
  | n + 1, s => processOrderCreated t p (iterateOrder t p n s)

/-- A PENDING checkout created at time 0, abandoned by the sweeper at 61
minutes, then completed by an order event: the state reached. -/
def wAbandonedThenCompleted : Store :=
  markCheckoutCompleted "t1" "c1" 4000000
    (detectAbandonedCheckouts "t1" 3660000
      (processCheckout "t1" wNullCheckoutPayload 0 Store.empty)).2

/-! ## General list lemmas shared across the development -/

theorem getElem?_map_of_getElem? {α β : Type} (f : α → β) {l : List α}
    {i : Nat} {a : α} (h : l[i]? = some a) : (l.map f)[i]? = some (f a) := by
  simp [List.getElem?_map, h]

theorem getElem?_append_of_getElem? {α : Type} {l l' : List α} {i : Nat}
    {a : α} (h : l[i]? = some a) : (l ++ l')[i]? = some a := by
  have hi : i < l.length := (List.getElem?_eq_some.mp h).1
  rw [List.getElem?_append, if_pos hi]
  exact h

theorem jsNumOr_some (v d : Rat) : jsNumOr (some v) d = if v = 0 then d else v := rfl

theorem jsNumOr_none (d : Rat) : jsNumOr none d = d := rfl

/-! ## General lemmas about the sweeper -/

/-- A row already transitioned by the sweep, or skipped by it, is never
eligible again at the same instant. -/
theorem sweepEligible_after_sweep (t : String) (now : Int) (c : CheckoutRow) :
    sweepEligible t now
      (if sweepEligible t now c then
        { c with status := CheckoutStatus.ABANDONED, abandonedAt := some now,
                 updatedAt := now }
      else c) = false := by
  by_cases h : sweepEligible t now c = true
  · rw [if_pos h]
    simp [sweepEligible]
  · rw [if_neg (by simpa using h)]
    simpa using h

/-- C6: detectAbandonedCheckouts transitions exactly the tenant's PENDING
checkouts created more than 60 minutes before now to ABANDONED with
abandonedAt stamped now, leaves every other row unchanged, returns the
number of transitioned rows, and re-running at the same instant transitions
nothing and changes nothing. -/
theorem detectAbandonedCheckouts_correct (t : String) (now : Int) (s : Store) :
    (∀ (i : Nat) (c : CheckoutRow), s.checkouts[i]? = some c →
      (detectAbandonedCheckouts t now s).2.checkouts[i]? =
        some (if sweepEligible t now c then
          { c with status := CheckoutStatus.ABANDONED,
                   abandonedAt := some now, updatedAt := now }
        else c)) ∧
    (∀ c : CheckoutRow, sweepEligible t now c = true ↔
      (c.tenantId = t ∧ c.status = CheckoutStatus.PENDING ∧
        c.createdAt + 60 * 60 * 1000 < now)) ∧
    (detectAbandonedCheckouts t now s).1 =
      (s.checkouts.filter (sweepEligible t now)).length ∧
    detectAbandonedCheckouts t now (detectAbandonedCheckouts t now s).2 =
      (0, (detectAbandonedCheckouts t now s).2) := by
  refine ⟨?_, ?_, rfl, ?_⟩
  · intro i c hc
    simp [detectAbandonedCheckouts, List.getElem?_map, hc]
  · intro c
    simp only [sweepEligible, abandonmentThresholdMs, decide_eq_true_eq]
    constructor
    · rintro ⟨h1, h2, h3⟩; exact ⟨h1, h2, by omega⟩
    · rintro ⟨h1, h2, h3⟩; exact ⟨h1, h2, by omega⟩
  · have hnone : ∀ c ∈ (detectAbandonedCheckouts t now s).2.checkouts,
        sweepEligible t now c = false := by
      intro c hc
      simp only [detectAbandonedCheckouts, List.mem_map] at hc
      obtain ⟨c0, -, rfl⟩ := hc
      exact sweepEligible_after_sweep t now c0
    have hfil : (detectAbandonedCheckouts t now s).2.checkouts.filter
        (sweepEligible t now) = [] := by
      rw [List.filter_eq_nil_iff]
      intro c hc
      simp [hnone c hc]
    have hmap : (detectAbandonedCheckouts t now s).2.checkouts.map
        (fun c => if sweepEligible t now c then
          { c with status := CheckoutStatus.ABANDONED,
                   abandonedAt := some now, updatedAt := now }
        else c) = (detectAbandonedCheckouts t now s).2.checkouts := by
      have := List.map_congr_left (l := (detectAbandonedCheckouts t now s).2.checkouts)
        (f := fun c => if sweepEligible t now c then
          { c with status := CheckoutStatus.ABANDONED,
                   abandonedAt := some now, updatedAt := now }
        else c) (g := id)
        (fun c hc => by simp [hnone c hc])
      simpa using this
    have hexpand : detectAbandonedCheckouts t now
        (detectAbandonedCheckouts t now s).2 =
        (((detectAbandonedCheckouts t now s).2.checkouts.filter
            (sweepEligible t now)).length,
         { (detectAbandonedCheckouts t now s).2 with
            checkouts := (detectAbandonedCheckouts t now s).2.checkouts.map
              (fun c => if sweepEligible t now c then
                { c with status := CheckoutStatus.ABANDONED,
                         abandonedAt := some now, updatedAt := now }
              else c) }) := rfl
    rw [hexpand, hfil, hmap]
    rfl

/-- Witness for the sweeper theorem: a PENDING checkout created at time 0 is
transitioned by a sweep at 61 minutes and left alone by a sweep at 59
minutes. -/
theorem detectAbandonedCheckouts_correct_witness :
    (detectAbandonedCheckouts "t1" 3660000 wSweepStore).2.checkouts[0]? =
      some ({ wPendingRow with
              status := CheckoutStatus.ABANDONED
              abandonedAt := some 3660000
              updatedAt := 3660000 } : CheckoutRow) ∧
    (detectAbandonedCheckouts "t1" 3540000 wSweepStore).2.checkouts[0]? =
      some wPendingRow := by
  constructor
  · have h := (detectAbandonedCheckouts_correct "t1" 3660000 wSweepStore).1 0
      wPendingRow rfl
    rw [h, if_pos (by decide)]
  · have h := (detectAbandonedCheckouts_correct "t1" 3540000 wSweepStore).1 0
      wPendingRow rfl
    rw [h, if_neg (by decide)]

/-! ## Claim C1: is COMPLETED monotone under event-driven operations? -/

/-- C1 counterexample: from the empty store, a checkout event with
completed_at set produces a COMPLETED checkout, and a subsequent
checkouts/update payload with completed_at = null for the same checkout
resets its status to PENDING instead of leaving it COMPLETED. -/
theorem processCheckout_nullCompletedAt_resets_completed :
    ((processCheckout "t1" wCompletedCheckoutPayload 1000
        Store.empty).checkouts.map (fun c => c.status) =
      [CheckoutStatus.COMPLETED]) ∧
    ((processCheckout "t1" wNullCheckoutPayload 5000
        (processCheckout "t1" wCompletedCheckoutPayload 1000
          Store.empty)).checkouts.map (fun c => c.status) =
      [CheckoutStatus.PENDING]) ∧
    CheckoutStatus.PENDING ≠ CheckoutStatus.COMPLETED :=
  ⟨by decide, by decide, by decide⟩

/-- C1 (amended): once a checkout is COMPLETED, markCheckoutCompleted and
processCart never change its status, and processCheckout keeps it COMPLETED
whenever the payload carries a non-null completed_at; moreover no
event-driven operation ever sets a status to ABANDONED. Only a
checkouts/create-or-update payload with completed_at = null moves a
COMPLETED checkout, resetting it to PENDING (see the counterexample). -/
theorem completed_monotone_amended (t tok : String) (cart : Option String)
    (p : CheckoutPayload) (now : Int) (s : Store) (i : Nat) (c : CheckoutRow)
    (hc : s.checkouts[i]? = some c)
    (hcomp : c.status = CheckoutStatus.COMPLETED) :
    (∃ c', (markCheckoutCompleted t tok now s).checkouts[i]? = some c' ∧
      c'.status = CheckoutStatus.COMPLETED) ∧
    (∃ c', (processCart t cart now s).checkouts[i]? = some c' ∧
      c'.status = CheckoutStatus.COMPLETED) ∧
    (p.completed_at.isSome = true →
      ∃ c', (processCheckout t p now s).checkouts[i]? = some c' ∧
        c'.status = CheckoutStatus.COMPLETED) ∧
    (∀ c', (processCheckout t p now s).checkouts[i]? = some c' →
      c'.status ≠ CheckoutStatus.ABANDONED) := by
  refine ⟨?_, ?_, ?_, ?_⟩
  · unfold markCheckoutCompleted
    cases hf : s.checkouts.find? (fun c =>
        decide (c.tenantId = t ∧ c.shopifyCheckoutId = tok)) with
    | none => exact ⟨c, hc, hcomp⟩
    | some c0 =>
      dsimp only
      by_cases hst : c0.status = CheckoutStatus.COMPLETED
      · rw [if_pos hst]; exact ⟨c, hc, hcomp⟩
      · rw [if_neg hst]
        refine ⟨_, getElem?_map_of_getElem? _ hc, ?_⟩
        by_cases hid : c.id = c0.id
        · simp [hid]
        · simp [hid, hcomp]
  · unfold processCart
    cases hf : s.checkouts.find? (fun c =>
        c.tenantId == t &&
          match cart with
          | none => true
          | some tok => c.shopifyCartToken == some tok) with
    | none => exact ⟨c, hc, hcomp⟩
    | some c0 =>
      dsimp only
      refine ⟨_, getElem?_map_of_getElem? _ hc, ?_⟩
      by_cases hid : c.id = c0.id
      · simp [hid, hcomp]
      · simp [hid, hcomp]
  · intro hsome
    simp only [processCheckout]
    split
    · refine ⟨_, getElem?_map_of_getElem? _ hc, ?_⟩
      by_cases hid : c.tenantId = t ∧ c.shopifyCheckoutId = jsId p.id
      · simp [hid, hsome]
      · simp [hid, hcomp]
    · exact ⟨c, getElem?_append_of_getElem? hc, hcomp⟩
  · intro c' hc'
    simp only [processCheckout] at hc'
    split at hc'
    · rw [getElem?_map_of_getElem? _ hc] at hc'
      obtain rfl : c' = _ := (Option.some_inj.mp hc').symm
      by_cases hid : c.tenantId = t ∧ c.shopifyCheckoutId = jsId p.id
      · cases hs : p.completed_at.isSome <;> simp [hid, hs]
      · simp [hid, hcomp]
    · rw [getElem?_append_of_getElem? hc] at hc'
      obtain rfl : c' = c := (Option.some_inj.mp hc').symm
      simp [hcomp]

/-- Witness for the amended C1 theorem at a concrete COMPLETED checkout. -/
theorem completed_monotone_amended_witness :
    (∃ c', (markCheckoutCompleted "t1" "c1" 2000
        wCompletedStore).checkouts[0]? = some c' ∧
      c'.status = CheckoutStatus.COMPLETED) ∧
    (∃ c', (processCheckout "t1" wCompletedCheckoutPayload 2000
        wCompletedStore).checkouts[0]? = some c' ∧
      c'.status = CheckoutStatus.COMPLETED) := by
  have h := completed_monotone_amended "t1" "c1" none wCompletedCheckoutPayload
    2000 wCompletedStore 0 wCompletedRow rfl rfl
  exact ⟨h.1, h.2.2.1 rfl⟩

/-! ## Claim C4: the completedAt/abandonedAt exclusivity invariant -/

/-- C4 counterexample: a checkout created PENDING, swept to ABANDONED at 61
minutes, then completed by an order event ends COMPLETED with both
completedAt and abandonedAt non-null, because markCheckoutCompleted does
not clear abandonedAt. -/
theorem checkout_both_timestamps_set :
    wAbandonedThenCompleted.checkouts.map
      (fun c => (c.status, c.completedAt.isSome, c.abandonedAt.isSome)) =
      [(CheckoutStatus.COMPLETED, true, true)] := by decide

/-- C4 (amended): the direction of the invariant the code maintains is
status-implies-timestamp: every operation that touches checkouts preserves
the fact that COMPLETED rows have completedAt set, ABANDONED rows have
abandonedAt set, and PENDING rows have no completedAt; the at-most-one-set
half fails because no completion path clears abandonedAt (see the
counterexample). -/
theorem checkoutTimestampInv_preserved (t tok : String) (cart : Option String)
    (p : CheckoutPayload) (now : Int) (s : Store) (hs : storeCheckoutInv s) :
    storeCheckoutInv (processCheckout t p now s) ∧
    storeCheckoutInv (markCheckoutCompleted t tok now s) ∧
    storeCheckoutInv (processCart t cart now s) ∧
    storeCheckoutInv (detectAbandonedCheckouts t now s).2 := by
  unfold storeCheckoutInv at hs ⊢
  refine ⟨?_, ?_, ?_, ?_⟩
  · simp only [processCheckout]
    split
    · intro c hc
      simp only [List.mem_map] at hc
      obtain ⟨c0, hc0, rfl⟩ := hc
      by_cases hid : c0.tenantId = t ∧ c0.shopifyCheckoutId = jsId p.id
      · rw [if_pos hid]
        cases hcs : p.completed_at with
        | none => simp [checkoutTimestampInv, hcs]
        | some v => simp [checkoutTimestampInv, hcs]
      · rw [if_neg hid]; exact hs c0 hc0
    · intro c hc
      rcases List.mem_append.mp hc with h | h
      · exact hs c h
      · simp only [List.mem_singleton] at h
        subst h
        cases hcs : p.completed_at with
        | none => simp [checkoutTimestampInv, hcs]
        | some v => simp [checkoutTimestampInv, hcs]
  · unfold markCheckoutCompleted
    cases hf : s.checkouts.find? (fun c =>
        decide (c.tenantId = t ∧ c.shopifyCheckoutId = tok)) with
    | none => exact hs
    | some c0 =>
      dsimp only
      by_cases hst : c0.status = CheckoutStatus.COMPLETED
      · rw [if_pos hst]; exact hs
      · rw [if_neg hst]
        intro c hc
        simp only [List.mem_map] at hc
        obtain ⟨c1, hc1, rfl⟩ := hc
        by_cases hid : c1.id = c0.id
        · rw [if_pos hid]; simp [checkoutTimestampInv]
        · rw [if_neg hid]; exact hs c1 hc1
  · unfold processCart
    cases hf : s.checkouts.find? (fun c =>
        c.tenantId == t &&
          match cart with
          | none => true
          | some tok => c.shopifyCartToken == some tok) with
    | none => exact hs
    | some c0 =>
      dsimp only
      intro c hc
      simp only [List.mem_map] at hc
      obtain ⟨c1, hc1, rfl⟩ := hc
      by_cases hid : c1.id = c0.id
      · rw [if_pos hid]
        have h1 := hs c1 hc1
        simpa [checkoutTimestampInv] using h1
      · rw [if_neg hid]; exact hs c1 hc1
  · simp only [detectAbandonedCheckouts]
    intro c hc
    simp only [List.mem_map] at hc
    obtain ⟨c1, hc1, rfl⟩ := hc
    by_cases hel : sweepEligible t now c1 = true
    · rw [if_pos hel]
      have h1 := hs c1 hc1
      have hpend : c1.status = CheckoutStatus.PENDING := by
        simpa [sweepEligible] using (of_decide_eq_true hel).2.1
      simp [checkoutTimestampInv, h1.2.2 hpend]
    · rw [if_neg hel]; exact hs c1 hc1

/-- Witness for the amended C4 theorem on a concrete store satisfying the
invariant. -/
theorem checkoutTimestampInv_preserved_witness :
    storeCheckoutInv (processCheckout "t1" wNullCheckoutPayload 2000
      wCompletedStore) ∧
    storeCheckoutInv (detectAbandonedCheckouts "t1" 3660000
      wCompletedStore).2 := by
  have h := checkoutTimestampInv_preserved "t1" "c1" none wNullCheckoutPayload
    2000 wCompletedStore (by decide)
  refine ⟨h.1, ?_⟩
  have h2 := checkoutTimestampInv_preserved "t1" "c1" none wNullCheckoutPayload
    3660000 wCompletedStore (by decide)
  exact h2.2.2.2

/-! ## Claim C8: the refund amount and currency computation -/

/-- C8 counterexample: a refunds/create payload whose transactions sum to 0
while a refund line item carries subtotal 5 stores amount 5, not the
transaction sum 0 the claim prescribes: the JavaScript condOr chain lets a
zero transaction sum fall through to the line items. -/
theorem processRefund_zero_transactions_fall_through :
    (processRefund "t1" wZeroTxRefundPayload Store.empty).refunds.map
      (fun r => r.amount) = [5] ∧ (5 : Rat) ≠ 0 :=
  ⟨by norm_num [processRefund, wZeroTxRefundPayload, refundAmount,
      refundCurrency, jsNumOr, jsStrOr, jsStrOrNull, jsId, Store.empty],
   by norm_num⟩

/-- C8 (amended): the stored amount of every refund row matching the
payload's key equals the computed amount, which is the transaction-amount
sum when that sum is nonzero, else the refund-line-item subtotal sum (so a
zero transaction sum falls through), else 0; the currency, fixed when the
row is created, is the first transaction's truthy currency and defaults to
USD whenever no transaction carries one. -/
theorem processRefund_amount_correct (t : String) (p : RefundPayload)
    (s : Store) :
    (∀ r ∈ (processRefund t p s).refunds,
      r.tenantId = t → r.shopifyRefundId = jsId p.id →
        r.amount = refundAmount p) ∧
    (∀ txs, p.transactions = some txs →
      txs.foldl (fun a tx => a + jsNumOr tx.amount 0) 0 ≠ 0 →
      refundAmount p = txs.foldl (fun a tx => a + jsNumOr tx.amount 0) 0) ∧
    (∀ txs, p.transactions = some txs →
      txs.foldl (fun a tx => a + jsNumOr tx.amount 0) 0 = 0 →
      refundAmount p = jsNumOr (p.refund_line_items.map (fun lis =>
        lis.foldl (fun a it => a + jsNumOr it.subtotal 0) 0)) 0) ∧
    (p.transactions = none →
      refundAmount p = jsNumOr (p.refund_line_items.map (fun lis =>
        lis.foldl (fun a it => a + jsNumOr it.subtotal 0) 0)) 0) ∧
    ((∀ txs, p.transactions = some txs →
        ∀ tx ∈ txs, jsStrOrNull tx.currency = none) →
      refundCurrency p = "USD") ∧
    ((∀ r ∈ s.refunds,
        ¬(r.tenantId = t ∧ r.shopifyRefundId = jsId p.id)) →
      ∀ r ∈ (processRefund t p s).refunds,
        r.tenantId = t → r.shopifyRefundId = jsId p.id →
          r.currency = refundCurrency p) := by
  refine ⟨?_, ?_, ?_, ?_, ?_, ?_⟩
  · intro r hr h1 h2
    simp only [processRefund] at hr
    split at hr
    · simp only [List.mem_map] at hr
      obtain ⟨r0, hr0, rfl⟩ := hr
      by_cases hid : r0.tenantId = t ∧ r0.shopifyRefundId = jsId p.id
      · rw [if_pos hid]
      · rw [if_neg hid] at h1 h2 ⊢
        exact absurd ⟨h1, h2⟩ hid
    · next hany =>
      rcases List.mem_append.mp hr with h | h
      · exfalso
        apply hany
        simp only [List.any_eq_true]
        exact ⟨r, h, by simp [h1, h2]⟩
      · simp only [List.mem_singleton] at h
        subst h
        rfl
  · intro txs htxs hne
    simp only [refundAmount, htxs, Option.map_some', jsNumOr_some]
    rw [if_neg hne]
  · intro txs htxs hz
    simp only [refundAmount, htxs, Option.map_some', jsNumOr_some]
    rw [if_pos hz]
  · intro htxs
    simp only [refundAmount, htxs, Option.map_none', jsNumOr_none]
  · intro hnone
    cases htxs : p.transactions with
    | none => simp [refundCurrency, htxs, jsStrOr]
    | some txs =>
      cases txs with
      | nil => simp [refundCurrency, htxs, jsStrOr]
      | cons tx rest =>
        have := hnone (tx :: rest) htxs tx (by simp)
        cases hcur : tx.currency with
        | none => simp [refundCurrency, htxs, jsStrOr, hcur]
        | some v =>
          have hv : v = "" := by
            by_contra hv
            simp [jsStrOrNull, hcur, hv] at this
          subst hv
          simp [refundCurrency, htxs, jsStrOr, hcur]
  · intro hnoexist r hr h1 h2
    simp only [processRefund] at hr
    split at hr
    · next hany =>
      exfalso
      simp only [List.any_eq_true] at hany
      obtain ⟨r0, hr0, hcond⟩ := hany
      exact hnoexist r0 hr0 (of_decide_eq_true hcond)
    · rcases List.mem_append.mp hr with h | h
      · exact absurd ⟨h1, h2⟩ (hnoexist r h)
      · simp only [List.mem_singleton] at h
        subst h
        rfl

/-- Witness for the amended C8 theorem: the concrete payload with a zero
transaction sum and line-item subtotal 5 creates a row whose amount is the
computed refund amount. -/
theorem processRefund_amount_correct_witness :
    wZeroTxRefundRow ∈
      (processRefund "t1" wZeroTxRefundPayload Store.empty).refunds ∧
    wZeroTxRefundRow.amount = refundAmount wZeroTxRefundPayload := by
  have h := processRefund_amount_correct "t1" wZeroTxRefundPayload Store.empty
  refine ⟨?_, h.1 wZeroTxRefundRow ?_ (by decide) (by decide)⟩
  · norm_num [processRefund, wZeroTxRefundPayload, wZeroTxRefundRow,
      refundAmount, refundCurrency, jsNumOr, jsStrOr, jsStrOrNull, jsId,
      Store.empty]
    decide
  · norm_num [processRefund, wZeroTxRefundPayload, wZeroTxRefundRow,
      refundAmount, refundCurrency, jsNumOr, jsStrOr, jsStrOrNull, jsId,
      Store.empty]
    decide

/-! ## Claim C2: shape of verifyHmac, digest length and the length throw -/

theorem digestBytes_length (v : Hash8) : (digestBytes v).length = 32 := rfl

theorem sha256_length (m : List Nat) : (sha256 m).length = 32 :=
  digestBytes_length _

theorem hmacSha256_length (k m : List Nat) : (hmacSha256 k m).length = 32 :=
  sha256_length _

theorem b64Alphabet_ascii : ∀ c ∈ b64Alphabet, c.toNat < 128 := by decide

theorem b64c_ascii (n : Nat) : (b64c n).toNat < 128 := by
  unfold b64c
  rcases hg : b64Alphabet[n]? with - | c
  · simp [List.getD, hg]
  · have hmem : c ∈ b64Alphabet := List.getElem?_mem hg
    simpa [List.getD, hg] using b64Alphabet_ascii c hmem

theorem base64Chunks_ascii : ∀ bs : List Nat, ∀ c ∈ base64Chunks bs,
    c.toNat < 128 := by
  intro bs
  induction bs using base64Chunks.induct with
  | case1 a b c rest ih =>
    intro x hx
    simp only [base64Chunks, List.mem_cons] at hx
    rcases hx with rfl | rfl | rfl | rfl | hx
    · exact b64c_ascii _
    · exact b64c_ascii _
    · exact b64c_ascii _
    · exact b64c_ascii _
    · exact ih x hx
  | case2 a b =>
    intro x hx
    simp only [base64Chunks, List.mem_cons] at hx
    rcases hx with rfl | rfl | rfl | rfl | hx
    · exact b64c_ascii _
    · exact b64c_ascii _
    · exact b64c_ascii _
    · decide
    · simp at hx
  | case3 a =>
    intro x hx
    simp only [base64Chunks, List.mem_cons] at hx
    rcases hx with rfl | rfl | rfl | rfl | hx
    · exact b64c_ascii _
    · exact b64c_ascii _
    · decide
    · decide
    · simp at hx
  | case4 =>
    intro x hx
    simp [base64Chunks] at hx

theorem base64Chunks_length : ∀ bs : List Nat,
    (base64Chunks bs).length = ((bs.length + 2) / 3) * 4 := by
  intro bs
  induction bs using base64Chunks.induct with
  | case1 a b c rest ih =>
    simp only [base64Chunks, List.length_cons, ih]
    omega
  | case2 a b => simp [base64Chunks]
  | case3 a => simp [base64Chunks]
  | case4 => simp [base64Chunks]

theorem utf8Char_ascii {c : Char} (h : c.toNat < 128) :
    utf8Char c = [c.toNat] := by
  unfold utf8Char
  rw [if_pos h]

theorem utf8Bytes_mk_ascii : ∀ cs : List Char, (∀ c ∈ cs, c.toNat < 128) →
    (utf8Bytes (String.mk cs)).length = cs.length := by
  intro cs
  induction cs with
  | nil => intro h; rfl
  | cons c rest ih =>
    intro h
    have hc : utf8Char c = [c.toNat] := utf8Char_ascii (h c (by simp))
    have hrest : ((rest.map utf8Char).flatten).length = rest.length :=
      ih (fun x hx => h x (by simp [hx]))
    show ((c :: rest).map utf8Char).flatten.length = rest.length + 1
    rw [List.map_cons, List.flatten_cons, List.length_append, hc, hrest]
    simp only [List.length_singleton]
    omega

theorem utf8Bytes_hmacDigest_length (secret body : String) :
    (utf8Bytes (hmacDigest secret body)).length = 44 := by
  unfold hmacDigest base64
  rw [utf8Bytes_mk_ascii _ (base64Chunks_ascii _), base64Chunks_length,
    hmacSha256_length]

/-- The verifier in closed form: it throws exactly when the claimed
signature's UTF-8 byte length differs from the 44 bytes of the base64
digest, and otherwise returns the byte equality. -/
theorem verifyHmac_eq (body hdr secret : String) :
    verifyHmac body hdr secret =
      if (utf8Bytes hdr).length = 44 then
        Except.ok (decide (utf8Bytes (hmacDigest secret body) = utf8Bytes hdr))
      else Except.error () := by
  unfold verifyHmac timingSafeEqual
  rw [utf8Bytes_hmacDigest_length]
  by_cases h : (utf8Bytes hdr).length = 44
  · rw [if_pos h.symm, if_pos h]
  · rw [if_neg (fun hx => h hx.symm), if_neg h]

/-- C2 counterexample: a claimed signature shorter than the digest makes
verifyHmac propagate the RangeError thrown by timingSafeEqual instead of
returning false: it does not return a boolean for every input triple. -/
theorem verifyHmac_throws_on_short_signature :
    verifyHmac "hello" "tooshort" "secret" = Except.error () ∧
    ∀ b : Bool, Except.error () ≠ (Except.ok b : Except Unit Bool) := by
  constructor
  · rw [verifyHmac_eq]
    rw [if_neg (by decide)]
  · intro b
    exact fun h => Except.noConfusion h

/-- C2 (amended): verifyHmac computes the base64 HMAC-SHA256 digest of the
raw body and compares it to the claimed signature with timingSafeEqual; the
correct signature verifies true, and the call returns a boolean exactly
when the claimed signature occupies 44 UTF-8 bytes (the digest's length):
on any other length timingSafeEqual throws a RangeError instead of
returning false. -/
theorem verifyHmac_amended (body hdr secret : String) :
    verifyHmac body (hmacDigest secret body) secret = Except.ok true ∧
    ((verifyHmac body hdr secret).isOk = true ↔
      (utf8Bytes hdr).length = 44) ∧
    (verifyHmac body hdr secret = Except.ok true ↔
      utf8Bytes (hmacDigest secret body) = utf8Bytes hdr) ∧
    (verifyHmac body hdr secret = Except.error () ↔
      (utf8Bytes hdr).length ≠ 44) := by
  refine ⟨?_, ?_, ?_, ?_⟩
  · rw [verifyHmac_eq, if_pos (utf8Bytes_hmacDigest_length _ _)]
    simp
  · rw [verifyHmac_eq]
    by_cases h : (utf8Bytes hdr).length = 44
    · simp [h, Except.isOk, Except.toBool]
    · simp [h, Except.isOk, Except.toBool]
  · rw [verifyHmac_eq]
    by_cases h : (utf8Bytes hdr).length = 44
    · simp [h]
    · simp only [if_neg h]
      constructor
      · intro hx; exact absurd hx (fun hy => Except.noConfusion hy)
      · intro heq
        exact absurd (heq ▸ utf8Bytes_hmacDigest_length secret body) h
  · rw [verifyHmac_eq]
    by_cases h : (utf8Bytes hdr).length = 44
    · simp [h]
    · simp [h]

/-! ## Claim C9: response statuses of the webhook route -/

/-- C9 counterexample: a request carrying all three required headers whose
raw body was not captured is answered with 500, an inbound-event failure
response that is neither 200 nor 4xx. -/
theorem handleShopifyWebhook_missing_rawBody_500 :
    handleShopifyWebhook [wTenant] wNoRawBodyRequest 0 Store.empty =
      (500, Store.empty) ∧
    (500 : Nat) ≠ 200 ∧ ¬(400 ≤ (500 : Nat) ∧ (500 : Nat) ≤ 499) :=
  ⟨rfl, by decide, by decide⟩

/-- C9 (amended): the route maps each failure mode to its exact response,
always before any state mutation: a missing or falsy required header is
answered (400, s); headers present but raw body missing, (500, s); raw body
present but no tenant matching the shop domain, (404, s); tenant found but
verification returning false, (401, s); a RangeError thrown by the verifier
on a signature of the wrong length is masked as (200, s) with no state
change; and only successful verification yields (200, routeWebhook ...).
Consequently every status is 200, 400, 401, 404 or 500; any non-200
response leaves the store unchanged (so every 4xx rejection comes before
any state mutation); the status is 500 exactly when the three headers are
present and truthy but the raw body is missing; and the store changes only
on the fully verified 200 path. -/
theorem handleShopifyWebhook_responses (tenants : List TenantRow)
    (req : WebhookRequest) (now : Int) (s : Store) :
    ((jsStrOrNull req.hmacHeader = none ∨ jsStrOrNull req.topic = none ∨
      jsStrOrNull req.shopDomain = none) →
      handleShopifyWebhook tenants req now s = (400, s)) ∧
    (∀ hmac topic domain, jsStrOrNull req.hmacHeader = some hmac →
      jsStrOrNull req.topic = some topic →
      jsStrOrNull req.shopDomain = some domain →
      (jsStrOrNull req.rawBody = none →
        handleShopifyWebhook tenants req now s = (500, s)) ∧
      (∀ raw, jsStrOrNull req.rawBody = some raw →
        (findTenantByDomain tenants domain = none →
          handleShopifyWebhook tenants req now s = (404, s)) ∧
        (∀ tenant, findTenantByDomain tenants domain = some tenant →
          (verifyHmac raw hmac tenant.webhookSecret = Except.ok false →
            handleShopifyWebhook tenants req now s = (401, s)) ∧
          (verifyHmac raw hmac tenant.webhookSecret = Except.error () →
            handleShopifyWebhook tenants req now s = (200, s)) ∧
          (verifyHmac raw hmac tenant.webhookSecret = Except.ok true →
            handleShopifyWebhook tenants req now s =
              (200, routeWebhook tenant.id topic req.body now s))))) ∧
    ((handleShopifyWebhook tenants req now s).1 = 200 ∨
     (handleShopifyWebhook tenants req now s).1 = 400 ∨
     (handleShopifyWebhook tenants req now s).1 = 401 ∨
     (handleShopifyWebhook tenants req now s).1 = 404 ∨
     (handleShopifyWebhook tenants req now s).1 = 500) ∧
    ((handleShopifyWebhook tenants req now s).1 ≠ 200 →
      (handleShopifyWebhook tenants req now s).2 = s) ∧
    ((handleShopifyWebhook tenants req now s).1 = 500 ↔
      ((jsStrOrNull req.hmacHeader).isSome = true ∧
       (jsStrOrNull req.topic).isSome = true ∧
       (jsStrOrNull req.shopDomain).isSome = true ∧
       jsStrOrNull req.rawBody = none)) ∧
    ((handleShopifyWebhook tenants req now s).2 ≠ s →
      (handleShopifyWebhook tenants req now s).1 = 200 ∧
      ∃ hmac topic domain raw tenant,
        jsStrOrNull req.hmacHeader = some hmac ∧
        jsStrOrNull req.topic = some topic ∧
        jsStrOrNull req.shopDomain = some domain ∧
        jsStrOrNull req.rawBody = some raw ∧
        findTenantByDomain tenants domain = some tenant ∧
        verifyHmac raw hmac tenant.webhookSecret = Except.ok true) := by
  cases hh : jsStrOrNull req.hmacHeader with
  | none => simp [handleShopifyWebhook, hh]
  | some hmac =>
    cases ht : jsStrOrNull req.topic with
    | none => simp [handleShopifyWebhook, hh, ht]
    | some topic =>
      cases hd : jsStrOrNull req.shopDomain with
      | none => simp [handleShopifyWebhook, hh, ht, hd]
      | some domain =>
        cases hr : jsStrOrNull req.rawBody with
        | none => simp [handleShopifyWebhook, hh, ht, hd, hr]
        | some raw =>
          cases hf : findTenantByDomain tenants domain with
          | none => simp [handleShopifyWebhook, hh, ht, hd, hr, hf]
          | some tenant =>
            cases hv : verifyHmac raw hmac tenant.webhookSecret with
            | error e =>
              cases e
              simp [handleShopifyWebhook, hh, ht, hd, hr, hf, hv]
            | ok b =>
              cases b with
              | false => simp [handleShopifyWebhook, hh, ht, hd, hr, hf, hv]
              | true =>
                refine ⟨by simp [hh, ht, hd],
                  by simp [handleShopifyWebhook, hh, ht, hd, hr, hf, hv],
                  by simp [handleShopifyWebhook, hh, ht, hd, hr, hf, hv],
                  ?_, by simp [handleShopifyWebhook, hh, ht, hd, hr, hf, hv],
                  ?_⟩
                · intro hne
                  exact absurd (by simp [handleShopifyWebhook, hh, ht, hd, hr,
                    hf, hv]) hne
                · intro _
                  refine ⟨by simp [handleShopifyWebhook, hh, ht, hd, hr, hf, hv],
                    hmac, topic, domain, raw, tenant, rfl, rfl, rfl, rfl, hf, hv⟩

set_option maxRecDepth 16384 in
/-- Witness for the amended C9 theorem: each of the five failure modes
exercised at a concrete request against the concrete tenant — missing
header 400, missing raw body 500, unknown tenant 404, wrong 44-byte
signature 401, short signature masked as 200 — each with the store
untouched. -/
theorem handleShopifyWebhook_responses_witness :
    handleShopifyWebhook [wTenant] wMissingHeaderRequest 0 Store.empty =
      (400, Store.empty) ∧
    handleShopifyWebhook [wTenant] wNoRawBodyRequest 0 Store.empty =
      (500, Store.empty) ∧
    handleShopifyWebhook [wTenant] wUnknownTenantRequest 0 Store.empty =
      (404, Store.empty) ∧
    handleShopifyWebhook [wTenant] wWrongSigRequest 0 Store.empty =
      (401, Store.empty) ∧
    handleShopifyWebhook [wTenant] wShortSigRequest 0 Store.empty =
      (200, Store.empty) := by
  refine ⟨(handleShopifyWebhook_responses [wTenant] wMissingHeaderRequest 0
      Store.empty).1 (Or.inl rfl),
    ((handleShopifyWebhook_responses [wTenant] wNoRawBodyRequest 0
      Store.empty).2.1 "x" "orders/create" "shop.example.com"
      rfl rfl rfl).1 rfl,
    (((handleShopifyWebhook_responses [wTenant] wUnknownTenantRequest 0
      Store.empty).2.1 "x" "orders/create" "other.example.com"
      rfl rfl rfl).2 "body" rfl).1 rfl,
    ((((handleShopifyWebhook_responses [wTenant] wWrongSigRequest 0
      Store.empty).2.1 "AAAAAAAAAAAAAAAAAAAAAAAAAAAAAAAAAAAAAAAAAAAA"
      "orders/create" "shop.example.com" rfl rfl rfl).2 "body" rfl).2
      wTenant rfl).1 ?_,
    ((((handleShopifyWebhook_responses [wTenant] wShortSigRequest 0
      Store.empty).2.1 "x" "orders/create" "shop.example.com"
      rfl rfl rfl).2 "body" rfl).2 wTenant rfl).2.1 ?_⟩
  · rw [verifyHmac_eq, if_pos (by decide)]
    exact congrArg Except.ok (by decide)
  · rw [verifyHmac_eq]
    rw [if_neg (by decide)]

/-! ## Claim C7: order events complete the correlated checkout -/

/-- processOrderCreated only touches the order, customer and product tables;
the checkout table and the id counter are unchanged. -/
theorem processOrderCreated_checkouts (t : String) (p : OrderPayload)
    (s : Store) : (processOrderCreated t p s).checkouts = s.checkouts ∧
      (processOrderCreated t p s).nextId = s.nextId := by
  cases hc : p.customer <;> simp [processOrderCreated, hc]

/-- C7 counterexample: an orders/create event with the non-null but empty
checkout_token of an existing, not yet COMPLETED checkout does not complete
it, because the router's truthiness guard skips the empty string. -/
theorem routeWebhook_empty_token_no_completion :
    wEmptyTokenOrderPayload.checkout_token = some "" ∧
    wEmptyTokenStore.checkouts.map (fun c => (c.shopifyCheckoutId, c.status)) =
      [("", CheckoutStatus.PENDING)] ∧
    (routeWebhook "t1" "orders/create" wEmptyTokenOrderPayload 500
        wEmptyTokenStore).checkouts.map (fun c => c.status) =
      [CheckoutStatus.PENDING] ∧
    CheckoutStatus.PENDING ≠ CheckoutStatus.COMPLETED :=
  ⟨by decide, by decide, by decide, by decide⟩

/-- C7 (amended): for every orders/create or orders/updated event whose
checkout_token is present and non-empty, if the Checkout found by
(tenantId, shopifyCheckoutId = checkout_token) is not COMPLETED, routing
the event transitions it to COMPLETED with completedAt = now, regardless of
the order in which the checkout and order events arrived. -/
theorem routeWebhook_order_completes_checkout (t topic tok : String)
    (p : WebhookPayload) (now : Int) (s : Store) (c0 : CheckoutRow)
    (htopic : topic = "orders/create" ∨ topic = "orders/updated")
    (htok : p.checkout_token = some tok) (hne : tok ≠ "")
    (hfind : s.checkouts.find? (fun c =>
        decide (c.tenantId = t ∧ c.shopifyCheckoutId = tok)) = some c0)
    (hst : c0.status ≠ CheckoutStatus.COMPLETED) :
    ∀ c' ∈ (routeWebhook t topic p now s).checkouts,
      c'.id = c0.id →
        c'.status = CheckoutStatus.COMPLETED ∧ c'.completedAt = some now := by
  intro c' hc' hid
  have hord : routeWebhook t topic p now s =
      markCheckoutCompleted t tok now (processOrderCreated t p.asOrder s) := by
    simp only [routeWebhook, if_pos htopic, htok]
    rw [if_neg hne]
  rw [hord] at hc'
  have hck := processOrderCreated_checkouts t p.asOrder s
  unfold markCheckoutCompleted at hc'
  rw [hck.1, hfind] at hc'
  dsimp only at hc'
  rw [if_neg hst] at hc'
  dsimp only at hc'
  simp only [List.mem_map] at hc'
  obtain ⟨c1, hc1, rfl⟩ := hc'
  by_cases h1 : c1.id = c0.id
  · rw [if_pos h1]
    exact ⟨rfl, rfl⟩
  · rw [if_neg h1] at hid ⊢
    exact absurd hid h1

/-- Witness for the amended C7 theorem: an order event carrying token c1
completes the concrete PENDING checkout c1. -/
theorem routeWebhook_order_completes_checkout_witness :
    ∃ c', c' ∈ (routeWebhook "t1" "orders/create" wOrderWithTokenPayload 700
        wSweepStore).checkouts ∧
      c'.id = wPendingRow.id ∧
      c'.status = CheckoutStatus.COMPLETED ∧ c'.completedAt = some 700 := by
  have h := routeWebhook_order_completes_checkout "t1" "orders/create" "c1"
    wOrderWithTokenPayload 700 wSweepStore wPendingRow (Or.inl rfl) rfl
    (by decide) (by decide) (by decide)
  obtain ⟨c', hc'⟩ : ∃ c', (routeWebhook "t1" "orders/create"
      wOrderWithTokenPayload 700 wSweepStore).checkouts[0]? = some c' :=
    ⟨_, rfl⟩
  have hmem := List.getElem?_mem hc'
  have hid : c'.id = wPendingRow.id := by
    have := Option.some_inj.mp hc'
    rw [← this]
    decide
  exact ⟨c', hmem, hid, h c' hmem hid⟩

/-! ## Claim C3: tenant isolation of the ingestion path -/

/-- Filtering commutes away a pointwise map that fixes every element
satisfying the filter and never changes whether an element satisfies it. -/
theorem filter_map_of_fixed {α : Type} (l : List α) (f : α → α) (p : α → Bool)
    (hfix : ∀ a ∈ l, p a = true → f a = a) (hpres : ∀ a, p (f a) = p a) :
    (l.map f).filter p = l.filter p := by
  induction l with
  | nil => rfl
  | cons a rest ih =>
    simp only [List.map_cons, List.filter_cons, hpres a]
    by_cases hpa : p a = true
    · rw [hpa]
      simp only [if_true]
      rw [hfix a (by simp) hpa,
        ih (fun x hx hpx => hfix x (by simp [hx]) hpx)]
    · rw [Bool.not_eq_true] at hpa
      rw [hpa]
      simp only [Bool.false_eq_true, if_false]
      exact ih (fun x hx hpx => hfix x (by simp [hx]) hpx)

/-- C3 counterexample: tenant A ingests order 1 with total 10; tenant B then
processes an orders/create event with the same source-system id, and
because the Order upsert is keyed by the bare id, tenant A's row is
overwritten with tenant B's total. -/
theorem processOrder_cross_tenant_update :
    wCrossTenantStore.orders.map (fun o => (o.id, o.tenantId, o.total)) =
      [("1", "A", 10)] ∧
    (processOrderCreated "B" wOrderTenantB wCrossTenantStore).orders.map
      (fun o => (o.id, o.tenantId, o.total)) = [("1", "A", 99)] ∧
    (99 : Rat) ≠ 10 := by
  refine ⟨?_, ?_, by norm_num⟩
  · norm_num [wCrossTenantStore, processOrderCreated, orderUpsert,
      wOrderTenantA, jsId, jsNumOr, jsStrOr, Store.empty]
  · norm_num [wCrossTenantStore, processOrderCreated, orderUpsert,
      wOrderTenantA, wOrderTenantB, jsId, jsNumOr, jsStrOr, Store.empty]

/-- C3 (amended): the Checkout and Refund upserts, the cart correlation,
the order-driven completion and the sweeper are tenant-scoped: rows of
other tenants are never touched (for the two operations that update by
synthetic id, under the primary-key uniqueness invariant). The Order,
Customer and Product upserts, keyed by the bare source-system id, are not
tenant-scoped (see the counterexample). -/
theorem tenant_scoped_ops (t tok : String) (cp : CheckoutPayload)
    (rp : RefundPayload) (cart : Option String) (now : Int) (s : Store)
    (hinj : ∀ a ∈ s.checkouts, ∀ b ∈ s.checkouts, a.id = b.id → a = b) :
    ((processCheckout t cp now s).checkouts.filter
        (fun c => decide (c.tenantId ≠ t)) =
      s.checkouts.filter (fun c => decide (c.tenantId ≠ t))) ∧
    ((processRefund t rp s).refunds.filter
        (fun r => decide (r.tenantId ≠ t)) =
      s.refunds.filter (fun r => decide (r.tenantId ≠ t))) ∧
    ((detectAbandonedCheckouts t now s).2.checkouts.filter
        (fun c => decide (c.tenantId ≠ t)) =
      s.checkouts.filter (fun c => decide (c.tenantId ≠ t))) ∧
    ((processCart t cart now s).checkouts.filter
        (fun c => decide (c.tenantId ≠ t)) =
      s.checkouts.filter (fun c => decide (c.tenantId ≠ t))) ∧
    ((markCheckoutCompleted t tok now s).checkouts.filter
        (fun c => decide (c.tenantId ≠ t)) =
      s.checkouts.filter (fun c => decide (c.tenantId ≠ t))) := by
  refine ⟨?_, ?_, ?_, ?_, ?_⟩
  · simp only [processCheckout]
    split
    · apply filter_map_of_fixed
      · intro a _ hpa
        rw [decide_eq_true_eq] at hpa
        rw [if_neg (fun hx => hpa hx.1)]
      · intro a
        by_cases h : a.tenantId = t ∧ a.shopifyCheckoutId = jsId cp.id
        · rw [if_pos h]
        · rw [if_neg h]
    · rw [List.filter_append]
      simp
  · simp only [processRefund]
    split
    · apply filter_map_of_fixed
      · intro a _ hpa
        rw [decide_eq_true_eq] at hpa
        rw [if_neg (fun hx => hpa hx.1)]
      · intro a
        by_cases h : a.tenantId = t ∧ a.shopifyRefundId = jsId rp.id
        · rw [if_pos h]
        · rw [if_neg h]
    · rw [List.filter_append]
      simp
  · simp only [detectAbandonedCheckouts]
    apply filter_map_of_fixed
    · intro a _ hpa
      rw [decide_eq_true_eq] at hpa
      rw [if_neg]
      intro hel
      exact hpa (of_decide_eq_true hel).1
    · intro a
      by_cases h : sweepEligible t now a = true
      · rw [if_pos h]
      · rw [if_neg h]
  · unfold processCart
    cases hf : s.checkouts.find? (fun c =>
        c.tenantId == t &&
          match cart with
          | none => true
          | some tok => c.shopifyCartToken == some tok) with
    | none => rfl
    | some c0 =>
      dsimp only
      have hc0mem : c0 ∈ s.checkouts := List.mem_of_find?_eq_some hf
      have hc0t : c0.tenantId = t := by
        have := List.find?_some hf
        simp only [Bool.and_eq_true, beq_iff_eq] at this
        exact this.1
      apply filter_map_of_fixed
      · intro a ha hpa
        rw [decide_eq_true_eq] at hpa
        rw [if_neg]
        intro hid
        exact hpa (hinj a ha c0 hc0mem hid ▸ hc0t)
      · intro a
        by_cases h : a.id = c0.id
        · rw [if_pos h]
        · rw [if_neg h]
  · unfold markCheckoutCompleted
    cases hf : s.checkouts.find? (fun c =>
        decide (c.tenantId = t ∧ c.shopifyCheckoutId = tok)) with
    | none => rfl
    | some c0 =>
      dsimp only
      have hc0mem : c0 ∈ s.checkouts := List.mem_of_find?_eq_some hf
      have hc0t : c0.tenantId = t := by
        have hp := List.find?_some hf
        simp only [decide_eq_true_eq] at hp
        exact hp.1
      by_cases hst : c0.status = CheckoutStatus.COMPLETED
      · rw [if_pos hst]
      · rw [if_neg hst]
        apply filter_map_of_fixed
        · intro a ha hpa
          rw [decide_eq_true_eq] at hpa
          rw [if_neg]
          intro hid
          exact hpa (hinj a ha c0 hc0mem hid ▸ hc0t)
        · intro a
          by_cases h : a.id = c0.id
          · rw [if_pos h]
          · rw [if_neg h]

/-- Witness for the amended C3 theorem on the concrete sweep store. -/
theorem tenant_scoped_ops_witness :
    (processCheckout "t2" wNullCheckoutPayload 10 wSweepStore).checkouts.filter
      (fun c => decide (c.tenantId ≠ "t2")) =
    wSweepStore.checkouts.filter (fun c => decide (c.tenantId ≠ "t2")) :=
  (tenant_scoped_ops "t2" "c1" wNullCheckoutPayload wZeroTxRefundPayload none
    10 wSweepStore (by decide)).1

/-! ## Claim C5: customer aggregates versus the order set -/

theorem processOrderCreated_orders_eq (t : String) (p : OrderPayload)
    (s : Store) :
    (processOrderCreated t p s).orders = orderUpsert t p s.orders := by
  cases hc : p.customer <;> simp [processOrderCreated, hc]

/-- C5 counterexample: a customers/create event alone stores the payload's
self-reported totals: after routing it on an empty store the customer
carries totalSpent 999 while the sum over its orders is 0, so the
aggregates are not recomputed from the Order set after every handler. -/
theorem processCustomer_keeps_self_reported_totals :
    (routeWebhook "t1" "customers/create" wSelfReportedCustomerPayload 0
        Store.empty).customers.map (fun r => (r.id, r.totalSpent, r.ordersCount)) =
      [("cu1", (999 : Rat), (7 : Int))] ∧
    orderTotalSum (routeWebhook "t1" "customers/create"
        wSelfReportedCustomerPayload 0 Store.empty).orders "t1" "cu1" = 0 ∧
    (999 : Rat) ≠ 0 := by
  refine ⟨?_, ?_, by norm_num⟩
  · simp +decide [routeWebhook, processCustomer, wSelfReportedCustomerPayload,
      wEmptyPayload, WebhookPayload.asCustomer, jsId, jsStrOr, jsStrOrNull,
      jsIntOr, Store.empty]
  · simp +decide [routeWebhook, orderTotalSum, processCustomer,
      wSelfReportedCustomerPayload, wEmptyPayload, WebhookPayload.asCustomer,
      jsId, jsStrOr, jsStrOrNull, jsIntOr, Store.empty]

/-- C5 (amended): after processOrderCreated for an order payload embedding a
customer, the stored row with that customer's id carries totalSpent and
ordersCount recomputed from the resulting Order set scoped by
(tenantId, customerId); a bare customer upsert however seeds both fields
from the payload's self-reported values (see the counterexample). -/
theorem processOrderCreated_recomputes_aggregates (t : String)
    (p : OrderPayload) (s : Store) (c : CustomerPayload)
    (hc : p.customer = some c) :
    ∀ r ∈ (processOrderCreated t p s).customers,
      r.id = jsId c.id →
        r.totalSpent =
          orderTotalSum (processOrderCreated t p s).orders t (jsId c.id) ∧
        r.ordersCount =
          orderRowCount (processOrderCreated t p s).orders t (jsId c.id) := by
  intro r hr hid
  have hord := processOrderCreated_orders_eq t p s
  simp only [processOrderCreated, hc] at hr
  simp only [List.mem_map] at hr
  obtain ⟨r0, hr0, rfl⟩ := hr
  by_cases h : r0.id = jsId c.id
  · rw [if_pos h]
    rw [hord]
    exact ⟨rfl, rfl⟩
  · rw [if_neg h] at hid
    exact absurd hid h

/-- Witness for the amended C5 theorem: a concrete order event with an
embedded customer on the empty store. -/
theorem processOrderCreated_recomputes_aggregates_witness :
    ∃ r, r ∈ (processOrderCreated "t1" wOrderWithCustomerPayload
        Store.empty).customers ∧
      r.id = jsId wEmbeddedCustomer.id ∧
      r.totalSpent = orderTotalSum (processOrderCreated "t1"
        wOrderWithCustomerPayload Store.empty).orders "t1"
        (jsId wEmbeddedCustomer.id) ∧
      r.ordersCount = orderRowCount (processOrderCreated "t1"
        wOrderWithCustomerPayload Store.empty).orders "t1"
        (jsId wEmbeddedCustomer.id) := by
  have h := processOrderCreated_recomputes_aggregates "t1"
    wOrderWithCustomerPayload Store.empty wEmbeddedCustomer rfl
  obtain ⟨r, hr⟩ : ∃ r, (processOrderCreated "t1" wOrderWithCustomerPayload
      Store.empty).customers[0]? = some r := ⟨_, rfl⟩
  have hmem := List.getElem?_mem hr
  have hid : r.id = jsId wEmbeddedCustomer.id := by
    have := Option.some_inj.mp hr
    rw [← this]
    decide
  exact ⟨r, hmem, hid, (h r hmem hid).1, (h r hmem hid).2⟩

/-! ## Claim C10: idempotence of processOrderCreated

The products step folds one upsert per line item over the Product table,
so its idempotence needs a small theory: ids only accumulate, every row in
the fold's output is a fixed point of replaying the whole item chain, and
once every item's id is present the fold is a pure overwrite map.
-/

theorem prodSet_id (item : LineItemPayload) (r : ProductRow) :
    (prodSet item r).id = r.id := rfl

theorem prodSet_prodSet (a b : LineItemPayload) (r : ProductRow) :
    prodSet a (prodSet b r) = prodSet a r := rfl

/-- The per-item upsert in normal form, through itemKey, prodSet and
prodCreate. -/
theorem productUpsertFromItem_eq (t : String) (ps : List ProductRow)
    (item : LineItemPayload) :
    productUpsertFromItem t ps item =
      match itemKey item with
      | none => ps
      | some k =>
        if ps.any (fun r => r.id == k) then
          ps.map (fun r => if r.id = k then prodSet item r else r)
        else ps ++ [prodCreate t item k] := by
  cases hp : item.product_id with
  | none => simp [productUpsertFromItem, itemKey, hp]
  | some pid =>
    by_cases h0 : pid = 0
    · simp [productUpsertFromItem, itemKey, hp, h0]
    · simp only [productUpsertFromItem, itemKey, hp, if_neg h0]
      rfl

theorem any_key_map (ps : List ProductRow) (f : ProductRow → ProductRow)
    (hf : ∀ r, (f r).id = r.id) (k : String) :
    (ps.map f).any (fun r => r.id == k) = ps.any (fun r => r.id == k) := by
  induction ps with
  | nil => rfl
  | cons a rest ih => simp [List.any_cons, hf a, ih]

theorem any_key_upsert (t : String) (ps : List ProductRow)
    (item : LineItemPayload) (k : String)
    (h : ps.any (fun r => r.id == k) = true) :
    (productUpsertFromItem t ps item).any (fun r => r.id == k) = true := by
  rw [productUpsertFromItem_eq]
  cases hk : itemKey item with
  | none => exact h
  | some k' =>
    dsimp only
    split
    · rw [any_key_map]
      · exact h
      · intro r
        by_cases hr : r.id = k' <;> simp [hr, prodSet_id]
    · rw [List.any_append, h]
      rfl

theorem any_key_upsert_self (t : String) (ps : List ProductRow)
    (item : LineItemPayload) (k : String) (hk : itemKey item = some k) :
    (productUpsertFromItem t ps item).any (fun r => r.id == k) = true := by
  rw [productUpsertFromItem_eq, hk]
  dsimp only
  split
  · next h =>
    rw [any_key_map]
    · exact h
    · intro r
      by_cases hr : r.id = k <;> simp [hr, prodSet_id]
  · rw [List.any_append]
    simp [prodCreate]

theorem any_key_fold (t : String) (items : List LineItemPayload)
    (ps : List ProductRow) (k : String)
    (h : ps.any (fun r => r.id == k) = true) :
    (items.foldl (productUpsertFromItem t) ps).any
      (fun r => r.id == k) = true := by
  induction items generalizing ps with
  | nil => exact h
  | cons it rest ih => exact ih _ (any_key_upsert t ps it k h)

theorem any_key_fold_mem (t : String) (items : List LineItemPayload)
    (ps : List ProductRow) (it : LineItemPayload) (k : String)
    (hmem : it ∈ items) (hk : itemKey it = some k) :
    (items.foldl (productUpsertFromItem t) ps).any
      (fun r => r.id == k) = true := by
  induction items generalizing ps with
  | nil => cases hmem
  | cons it0 rest ih =>
    rcases List.mem_cons.mp hmem with heq | hmem'
    · subst heq
      exact any_key_fold t rest _ k (any_key_upsert_self t ps it k hk)
    · exact ih _ hmem'

/-- Once every item's id is already present, the fold is a pure overwrite
map replaying the item chain on each row. -/
theorem fold_eq_map_chain (t : String) (items : List LineItemPayload)
    (ps : List ProductRow)
    (hsat : ∀ it ∈ items, ∀ k, itemKey it = some k →
      ps.any (fun r => r.id == k) = true) :
    items.foldl (productUpsertFromItem t) ps = ps.map (prodChain items) := by
  induction items generalizing ps with
  | nil =>
    show ps = ps.map (fun r => r)
    rw [List.map_id']
  | cons it rest ih =>
    simp only [List.foldl_cons]
    cases hk : itemKey it with
    | none =>
      have hstep : productUpsertFromItem t ps it = ps := by
        rw [productUpsertFromItem_eq, hk]
      rw [hstep, ih _ (fun it' hit' k hk' => hsat it' (by simp [hit']) k hk')]
      apply List.map_congr_left
      intro r _
      simp [prodChain, prodChainStep, hk]
    | some k =>
      have hany := hsat it (by simp) k hk
      have hstep : productUpsertFromItem t ps it =
          ps.map (fun r => if r.id = k then prodSet it r else r) := by
        rw [productUpsertFromItem_eq, hk]
        dsimp only
        rw [if_pos hany]
      rw [hstep, ih _ ?hsat2]
      · rw [List.map_map]
        apply List.map_congr_left
        intro r _
        simp only [Function.comp_apply, prodChain, List.foldl_cons,
          prodChainStep, hk]
      case hsat2 =>
        intro it' hit' k' hk'
        rw [any_key_map]
        · exact hsat it' (by simp [hit']) k' hk'
        · intro r
          by_cases hr : r.id = k <;> simp [hr, prodSet_id]

/-- Rows whose id no item carries pass through the fold untouched. -/
theorem fold_filter_untouched (t : String) (items : List LineItemPayload)
    (ps : List ProductRow) (k : String)
    (h : ∀ it ∈ items, itemKey it ≠ some k) :
    (items.foldl (productUpsertFromItem t) ps).filter (fun r => r.id == k) =
      ps.filter (fun r => r.id == k) := by
  induction items generalizing ps with
  | nil => rfl
  | cons it rest ih =>
    simp only [List.foldl_cons]
    rw [ih _ (fun it' h' => h it' (by simp [h']))]
    rw [productUpsertFromItem_eq]
    cases hk : itemKey it with
    | none => rfl
    | some k' =>
      have hkk : k' ≠ k := fun he => h it (by simp) (he ▸ hk)
      dsimp only
      split
      · apply filter_map_of_fixed
        · intro a _ hpa
          rw [if_neg]
          intro hid
          exact hkk (hid ▸ (by simpa using hpa))
        · intro a
          by_cases ha : a.id = k' <;> simp [ha, prodSet_id]
      · rw [List.filter_append]
        have hnew : ((prodCreate t it k').id == k) = false := by
          simp [prodCreate, hkk]
        simp [hnew]

/-- Replaying the chain ignores an extra overwrite when a later (or equal)
item writes the same id anyway. -/
theorem prodChain_set_absorb (its : List LineItemPayload)
    (it : LineItemPayload) (x : ProductRow)
    (h : ∃ it' ∈ its, itemKey it' = some x.id) :
    prodChain its (prodSet it x) = prodChain its x := by
  induction its generalizing x with
  | nil =>
    obtain ⟨it', h', -⟩ := h
    cases h'
  | cons it0 rest ih =>
    simp only [prodChain, List.foldl_cons]
    cases hk0 : itemKey it0 with
    | none =>
      simp only [prodChainStep, hk0]
      obtain ⟨it', hmem, hk'⟩ := h
      rcases List.mem_cons.mp hmem with rfl | hmem'
      · rw [hk0] at hk'
        cases hk'
      · exact ih x ⟨it', hmem', hk'⟩
    | some k0 =>
      simp only [prodChainStep, hk0]
      by_cases hx : x.id = k0
      · rw [if_pos (by rw [prodSet_id]; exact hx), if_pos hx, prodSet_prodSet]
      · rw [if_neg (by rw [prodSet_id]; exact hx), if_neg hx]
        obtain ⟨it', hmem, hk'⟩ := h
        rcases List.mem_cons.mp hmem with rfl | hmem'
        · rw [hk0] at hk'
          exact absurd (Option.some_inj.mp hk').symm hx
        · exact ih x ⟨it', hmem', hk'⟩

theorem prodChain_no_match (its : List LineItemPayload) (z : ProductRow)
    (h : ∀ it' ∈ its, itemKey it' ≠ some z.id) :
    prodChain its z = z := by
  induction its with
  | nil => rfl
  | cons it0 rest ih =>
    simp only [prodChain, List.foldl_cons]
    have hstep : prodChainStep z it0 = z := by
      unfold prodChainStep
      cases hk : itemKey it0 with
      | none => rfl
      | some k0 =>
        dsimp only
        rw [if_neg]
        intro hz
        exact h it0 (by simp) (by rw [hk, hz])
    rw [hstep]
    exact ih (fun it' h' => h it' (by simp [h']))

/-- After the upsert for an item, every row carrying that item's id already
holds the item's fields. -/
theorem upsert_row_saturated (t : String) (ps : List ProductRow)
    (it : LineItemPayload) (k : String) (hk : itemKey it = some k) :
    ∀ r ∈ productUpsertFromItem t ps it, r.id = k → prodSet it r = r := by
  rw [productUpsertFromItem_eq, hk]
  dsimp only
  split
  · intro r hr hid
    simp only [List.mem_map] at hr
    obtain ⟨r0, hr0, rfl⟩ := hr
    by_cases h0 : r0.id = k
    · rw [if_pos h0]
      exact prodSet_prodSet it it r0
    · rw [if_neg h0] at hid ⊢
      exact absurd hid h0
  · next hany =>
    intro r hr hid
    rcases List.mem_append.mp hr with h | h
    · exfalso
      apply hany
      rw [List.any_eq_true]
      exact ⟨r, h, by simp [hid]⟩
    · simp only [List.mem_singleton] at h
      subst h
      rfl

/-- Every row of the fold's output is a fixed point of replaying the whole
item chain. -/
theorem fold_row_fixpoint (t : String) :
    ∀ (items : List LineItemPayload) (ps : List ProductRow),
      ∀ r ∈ items.foldl (productUpsertFromItem t) ps,
        prodChain items r = r := by
  intro items
  induction items with
  | nil =>
    intro ps r _
    rfl
  | cons it rest ih =>
    intro ps r hr
    simp only [List.foldl_cons] at hr
    by_cases hmatch : ∃ it' ∈ rest, itemKey it' = some r.id
    · simp only [prodChain, List.foldl_cons]
      cases hk : itemKey it with
      | none =>
        simp only [prodChainStep, hk]
        exact ih _ r hr
      | some k =>
        simp only [prodChainStep, hk]
        by_cases hid : r.id = k
        · rw [if_pos hid]
          have habs : prodChain rest (prodSet it r) = prodChain rest r :=
            prodChain_set_absorb rest it r hmatch
          rw [show List.foldl prodChainStep (prodSet it r) rest =
              prodChain rest (prodSet it r) from rfl, habs]
          exact ih _ r hr
        · rw [if_neg hid]
          exact ih _ r hr
    · push_neg at hmatch
      have hchain_rest : ∀ z : ProductRow, z.id = r.id →
          prodChain rest z = z := by
        intro z hz
        exact prodChain_no_match rest z (by rw [hz]; exact hmatch)
      simp only [prodChain, List.foldl_cons]
      cases hk : itemKey it with
      | none =>
        simp only [prodChainStep, hk]
        exact hchain_rest r rfl
      | some k =>
        simp only [prodChainStep, hk]
        by_cases hid : r.id = k
        · rw [if_pos hid]
          have hfilter := fold_filter_untouched t rest
            (productUpsertFromItem t ps it) r.id hmatch
          have hrin : r ∈ (productUpsertFromItem t ps it).filter
              (fun x => x.id == r.id) := by
            rw [← hfilter, List.mem_filter]
            exact ⟨hr, by simp⟩
          rw [List.mem_filter] at hrin
          have hsat := upsert_row_saturated t ps it k hk r hrin.1 hid
          rw [hsat]
          exact hchain_rest r rfl
        · rw [if_neg hid]
          exact hchain_rest r rfl

/-- Idempotence of the whole per-line-item product fold. -/
theorem prodFold_idem (t : String) (items : List LineItemPayload)
    (ps : List ProductRow) :
    items.foldl (productUpsertFromItem t)
        (items.foldl (productUpsertFromItem t) ps) =
      items.foldl (productUpsertFromItem t) ps := by
  have hsat : ∀ it ∈ items, ∀ k, itemKey it = some k →
      (items.foldl (productUpsertFromItem t) ps).any
        (fun r => r.id == k) = true :=
    fun it hit k hk => any_key_fold_mem t items ps it k hit hk
  rw [fold_eq_map_chain t items _ hsat]
  calc (items.foldl (productUpsertFromItem t) ps).map (prodChain items)
      = (items.foldl (productUpsertFromItem t) ps).map id :=
        List.map_congr_left (fun r hr => fold_row_fixpoint t items ps r hr)
    _ = items.foldl (productUpsertFromItem t) ps := List.map_id _

theorem any_map_of_pres {α : Type} (l : List α) (f : α → α) (p : α → Bool)
    (hp : ∀ a, p (f a) = p a) : (l.map f).any p = l.any p := by
  induction l with
  | nil => rfl
  | cons a rest ih => simp [List.any_cons, hp a, ih]

/-- A keyed create-or-update on a list is idempotent whenever the update is
pointwise idempotent, fixes non-matching rows, preserves the key, and
fixes the freshly created row. -/
theorem upsert_idem {α : Type} (key : α → Bool) (u : α → α) (mk : α)
    (upsert : List α → List α)
    (hupsert : ∀ l', upsert l' = if l'.any key then l'.map u else l' ++ [mk])
    (hku : ∀ a, key (u a) = key a)
    (huu : ∀ a, u (u a) = u a)
    (hfix : ∀ a, key a = false → u a = a)
    (hkey_mk : key mk = true) (hmk : u mk = mk) (l : List α) :
    upsert (upsert l) = upsert l := by
  by_cases h : l.any key = true
  · rw [hupsert l, if_pos h, hupsert, any_map_of_pres _ u key hku, if_pos h,
      List.map_map]
    exact List.map_congr_left (fun a _ => huu a)
  · rw [hupsert l, if_neg h, hupsert, List.any_append]
    have hc : ([mk].any key) = true := by simp [hkey_mk]
    rw [hc, Bool.or_true, if_pos rfl, List.map_append]
    congr 1
    · have hkf : ∀ a ∈ l, key a = false := by
        intro a ha
        by_contra hx
        rw [Bool.not_eq_false] at hx
        exact h (by rw [List.any_eq_true]; exact ⟨a, ha, hx⟩)
      calc l.map u = l.map id :=
            List.map_congr_left (fun a ha => hfix a (hkf a ha))
        _ = l := List.map_id _
    · simp [hmk]

/-- Idempotence of upsert-then-overwrite phases: applying a keyed upsert
followed by a keyed overwrite twice equals applying them once, when the
update and the overwrite preserve the key, fix non-matching rows, and the
replayed pointwise composite collapses. -/
theorem upsert_phase_idem {α : Type} (key : α → Bool) (u g : α → α) (mk : α)
    (upsert : List α → List α)
    (hupsert : ∀ l', upsert l' = if l'.any key then l'.map u else l' ++ [mk])
    (hku : ∀ a, key (u a) = key a) (hkg : ∀ a, key (g a) = key a)
    (hfix_u : ∀ a, key a = false → u a = a)
    (hfix_g : ∀ a, key a = false → g a = a)
    (hugu : ∀ a, g (u (g (u a))) = g (u a))
    (hkey_mk : key mk = true) (hmk : u (g mk) = mk) (l : List α) :
    (upsert ((upsert l).map g)).map g = (upsert l).map g := by
  by_cases h : l.any key = true
  · rw [hupsert l, if_pos h, hupsert, any_map_of_pres _ g key hkg,
      any_map_of_pres _ u key hku, if_pos h]
    refine Eq.trans ?_ (List.map_map g u l).symm
    rw [List.map_map, List.map_map, List.map_map]
    apply List.map_congr_left
    intro a _
    simpa [Function.comp] using hugu a
  · rw [hupsert l, if_neg h, List.map_append, hupsert, List.any_append,
      any_map_of_pres _ g key hkg]
    have hc : ([mk].map g).any key = true := by simp [hkg mk, hkey_mk]
    rw [hc, Bool.or_true, if_pos rfl, List.map_append, List.map_append]
    have hkf : ∀ a ∈ l, key a = false := by
      intro a ha
      by_contra hx
      rw [Bool.not_eq_false] at hx
      exact h (by rw [List.any_eq_true]; exact ⟨a, ha, hx⟩)
    congr 1
    · rw [List.map_map, List.map_map]
      apply List.map_congr_left
      intro a ha
      have h1 := hkf a ha
      have h2 : g a = a := hfix_g a h1
      simp only [Function.comp_apply, h2, hfix_u a h1]
    · simp [hmk]

/-- Idempotence of the Order upsert. -/
theorem orderUpsert_idem (t : String) (p : OrderPayload) (os : List OrderRow) :
    orderUpsert t p (orderUpsert t p os) = orderUpsert t p os := by
  apply upsert_idem (fun o => o.id == jsId p.id)
    (fun o => if o.id = jsId p.id then
      { o with total := jsNumOr p.total_price 0,
               currency := jsStrOr p.currency "USD", rawJson := p }
      else o)
    ({ id := jsId p.id, tenantId := t,
       customerId := p.customer.map (fun c => jsId c.id),
       total := jsNumOr p.total_price 0,
       currency := jsStrOr p.currency "USD",
       orderNumber := p.order_number, rawJson := p })
    (orderUpsert t p)
  · intro l'
    rfl
  · intro a
    by_cases ha : a.id = jsId p.id <;> simp [ha]
  · intro a
    by_cases ha : a.id = jsId p.id <;> simp [ha]
  · intro a ha
    rw [if_neg]
    intro he
    simp [he] at ha
  · simp
  · simp

/-- Idempotence of the customer upsert-then-recompute phase, for fixed
recomputed aggregates. -/
theorem custPhase_idem (t : String) (c : CustomerPayload) (S : Rat) (N : Int)
    (cs : List CustomerRow) :
    (processCustomer t c ((processCustomer t c cs).map
        (fun r => if r.id = jsId c.id then
          { r with totalSpent := S, ordersCount := N } else r))).map
      (fun r => if r.id = jsId c.id then
        { r with totalSpent := S, ordersCount := N } else r) =
    (processCustomer t c cs).map
      (fun r => if r.id = jsId c.id then
        { r with totalSpent := S, ordersCount := N } else r) := by
  apply upsert_phase_idem (fun r => r.id == jsId c.id)
    (fun r => if r.id = jsId c.id then
      { r with email := jsStrOr c.email "",
               firstName := jsStrOrNull c.first_name,
               lastName := jsStrOrNull c.last_name,
               totalSpent := c.total_spent.getD 0,
               ordersCount := jsIntOr c.orders_count 0, rawJson := c }
      else r)
    (fun r => if r.id = jsId c.id then
      { r with totalSpent := S, ordersCount := N } else r)
    ({ id := jsId c.id, tenantId := t, email := jsStrOr c.email "",
       firstName := jsStrOrNull c.first_name,
       lastName := jsStrOrNull c.last_name,
       totalSpent := c.total_spent.getD 0,
       ordersCount := jsIntOr c.orders_count 0, rawJson := c })
    (processCustomer t c)
  · intro l'
    rfl
  · intro a
    by_cases ha : a.id = jsId c.id <;> simp [ha]
  · intro a
    by_cases ha : a.id = jsId c.id <;> simp [ha]
  · intro a ha
    rw [if_neg]
    intro he
    simp [he] at ha
  · intro a ha
    rw [if_neg]
    intro he
    simp [he] at ha
  · intro a
    by_cases ha : a.id = jsId c.id <;> simp [ha]
  · simp
  · simp

/-- C10 (core): applying processOrderCreated twice with the same payload
equals applying it once. -/
theorem processOrderCreated_idem (t : String) (p : OrderPayload) (s : Store) :
    processOrderCreated t p (processOrderCreated t p s) =
      processOrderCreated t p s := by
  cases hc : p.customer with
  | none =>
    simp only [processOrderCreated, hc]
    rw [orderUpsert_idem, prodFold_idem]
  | some c =>
    simp only [processOrderCreated, hc]
    rw [orderUpsert_idem, custPhase_idem, prodFold_idem]

/-- C10: applying the same orders/create payload N times, for any N of at
least 1, yields exactly the stored state of applying it once (the model
carries no timestamp columns on the Order, Customer and Product tables, so
this is equality of the full stored state excluding timestamps). -/
theorem processOrderCreated_idempotent_N (t : String) (p : OrderPayload)
    (s : Store) (n : Nat) (h : 1 ≤ n) :
    iterateOrder t p n s = processOrderCreated t p s := by
  induction n with
  | zero => cases h
  | succ m ih =>
    cases Nat.eq_or_lt_of_le h with
    | inl h1 =>
      have hm : m = 0 := by omega
      subst hm
      rfl
    | inr h2 =>
      have hm : 1 ≤ m := by omega
      show processOrderCreated t p (iterateOrder t p m s) =
        processOrderCreated t p s
      rw [ih hm, processOrderCreated_idem]

/-- Witness for C10 at N = 3 with a concrete payload carrying a customer
and line items. -/
theorem processOrderCreated_idempotent_N_witness :
    iterateOrder "t1" wOrderWithCustomerPayload 3 Store.empty =
      processOrderCreated "t1" wOrderWithCustomerPayload Store.empty :=
  processOrderCreated_idempotent_N "t1" wOrderWithCustomerPayload Store.empty
    3 (by decide)

end Xeno
